import Mathlib

/-!
# Verification of the katachi validation engine

Shallow embedding of the katachi schema-validation engine
(`src/katachi/validation/validators.py`, `core.py`, `registry.py`,
`src/katachi/schema/actions.py`, `schema_node.py`) together with proofs
settling the frozen claims about it.

Conventions of the embedding:
* Python lists/dicts become Lean lists / insertion-ordered association lists.
* Python exceptions become `Except String`; code that cannot raise is pure.
* The filesystem capability attached to schema nodes (`node.fs`) is not
  defined anywhere under `src/` (no constructor in `schema_node.py` takes or
  assigns `fs`); it is modelled from the spec: `Fs` gives its answers for
  runs in which no capability call raises, `FsE` keeps the error channel.
* Compiled regular expressions are modelled opaquely by their
  match-from-start function, see `Pattern` below.
* General recursion over the observed directory tree is expressed with an
  explicit fuel argument (`validate_structureF`); `validate_structure`
  instantiates the fuel with a provably sufficient bound.
-/

namespace Katachi

/-- `ValidationResult` from `validation/core.py`: one validation check.
The optional `context` payload is never set by any validator in the source
and is omitted. -/
structure ValidationResult where
  is_valid : Bool
  message : String
  path : String
  validator_name : String
  node_origin : String
deriving DecidableEq

/-- `ActionResult` from `schema/actions.py`. -/
structure ActionResult where
  success : Bool
  message : String
  path : String
  action_name : String
deriving DecidableEq

/-- `ActionTiming` from `schema/actions.py`. -/
inductive ActionTiming where
  | during_validation
  | after_validation
deriving DecidableEq

/-- `ValidationReport` from `validation/core.py`: an append-only sequence of
results plus the free-form context map, of which the engine only ever sets
the `"action_results"` key (in `validate_schema`); that single key is
modelled by the `actionResults` field. -/
structure ValidationReport where
  results : List ValidationResult
  actionResults : Option (List ActionResult) := none
deriving DecidableEq

/-- `ValidationReport.is_valid`: all results valid. -/
def ValidationReport.is_valid (r : ValidationReport) : Bool :=
  r.results.all (fun x => x.is_valid)

/-- Modelled from the spec: the filesystem capability (spec §6) that the
source attaches to every schema node as `node.fs`. It is absent from
`src/` (nothing under `src/` ever assigns an `fs` attribute to a schema
node). `Fs` gives the capability's ANSWERS for runs in which no capability
call raises; the raising case — which spec §5 requires the matcher itself
to degrade to "path does not exist" — is modelled separately by `FsE`
below, keeping the error channel observable. -/
structure Fs where
  isfile : String → Bool
  isdir : String → Bool
  ls : String → List String

/-- A compiled regular expression (`re.Pattern`), modelled opaquely:
`pattern` is the source text (`Pattern.pattern` in Python) and `matchFn s`
is the truth value of Python's `compiled.match(s)`, i.e. whether the
pattern matches a prefix of `s` anchored at the start (this is `re.match`,
not `re.fullmatch`). -/
structure Pattern where
  pattern : String
  matchFn : String → Bool

/-- The schema node hierarchy from `schema/schema_node.py`
(`SchemaFile` / `SchemaDirectory` / `SchemaPredicateNode`). Fields with no
effect on validation (`path`, `description`, `metadata`, `permissions`,
`owner`) are omitted; `fs` is the capability described at `Fs`. -/
inductive SchemaNode where
  | file (semantical_name : String) (fs : Fs) (extension : String)
      (pattern_validation : Option Pattern)
  | directory (semantical_name : String) (fs : Fs)
      (pattern_validation : Option Pattern) (children : List SchemaNode)
  | predicate (semantical_name : String) (predicate_type : String)
      (elements : List String)

/-- `node.semantical_name`. -/
def SchemaNode.semantical_name : SchemaNode → String
  | .file n _ _ _ => n
  | .directory n _ _ _ => n
  | .predicate n _ _ => n

/-- `isinstance(node, SchemaPredicateNode)`. -/
def SchemaNode.isPredicateNode : SchemaNode → Bool
  | .predicate _ _ _ => true
  | _ => false

/-- `NodeContext` from `validation/registry.py`. -/
structure NodeContext where
  node : SchemaNode
  path : String
  parent_paths : List String

/-- `NodeRegistry` from `validation/registry.py`: two insertion-ordered
dictionaries plus the processed-directories set (modelled as a
duplicate-free list). -/
structure NodeRegistry where
  nodes_by_name : List (String × List NodeContext)
  nodes_by_path : List (String × NodeContext)
  processed_dirs : List String

/-- A fresh registry (`NodeRegistry.__init__`). -/
def NodeRegistry.empty : NodeRegistry := ⟨[], [], []⟩

/-- Append `c` to the list stored under key `k`, creating the key at the
end if absent — Python's `dict.setdefault(k, []).append(c)` pattern used by
`register_node` (a present key keeps its position, a new key is appended in
insertion order). -/
def assocAppend (m : List (String × List NodeContext)) (k : String)
    (c : NodeContext) : List (String × List NodeContext) :=
  match m with
  | [] => [(k, [c])]
  | (k', v) :: rest =>
    if k' = k then (k', v ++ [c]) :: rest else (k', v) :: assocAppend rest k c

/-- Overwrite the value stored under key `k` (Python `dict[k] = c`). -/
def assocSet (m : List (String × NodeContext)) (k : String) (c : NodeContext) :
    List (String × NodeContext) :=
  match m with
  | [] => [(k, c)]
  | (k', v) :: rest =>
    if k' = k then (k', c) :: rest else (k', v) :: assocSet rest k c

/-- Dictionary lookup with `[]` default (Python `dict.get(k, [])`). -/
def assocFind (m : List (String × List NodeContext)) (k : String) :
    List NodeContext :=
  match m with
  | [] => []
  | (k', v) :: rest => if k' = k then v else assocFind rest k

/-- `NodeRegistry.register_node`. -/
def NodeRegistry.register_node (r : NodeRegistry) (node : SchemaNode)
    (path : String) (parent_paths : List String) : NodeRegistry :=
  { nodes_by_name :=
      assocAppend r.nodes_by_name node.semantical_name ⟨node, path, parent_paths⟩
    nodes_by_path := assocSet r.nodes_by_path path ⟨node, path, parent_paths⟩
    processed_dirs := r.processed_dirs }

/-- `NodeRegistry.register_processed_dir` (set insertion). -/
def NodeRegistry.register_processed_dir (r : NodeRegistry) (p : String) :
    NodeRegistry :=
  if r.processed_dirs.contains p then r
  else { r with processed_dirs := r.processed_dirs ++ [p] }

/-- `NodeRegistry.get_contexts_by_name`. -/
def NodeRegistry.get_contexts_by_name (r : NodeRegistry) (name : String) :
    List NodeContext :=
  assocFind r.nodes_by_name name

/-- `NodeRegistry.get_paths_by_name`. -/
def NodeRegistry.get_paths_by_name (r : NodeRegistry) (name : String) :
    List String :=
  (assocFind r.nodes_by_name name).map (fun c => c.path)

/-- Split a character list at every occurrence of `sep`. -/
def splitChar (sep : Char) : List Char → List (List Char)
  | [] => [[]]
  | c :: rest =>
    let r := splitChar sep rest
    if c = sep then [] :: r
    else
      match r with
      | [] => [[c]]
      | g :: gs => (c :: g) :: gs

/-- Python `s.split(sep)` for a single-character separator: `""` yields
`[""]`, and leading/trailing/adjacent separators yield empty fields. -/
def pySplit (s : String) (sep : Char) : List String :=
  (splitChar sep s.data).map (fun l => ⟨l⟩)

/-- Python `sep.join(xs)` for a single-character separator. -/
def joinWithChar (sep : Char) : List String → String
  | [] => ""
  | [x] => x
  | x :: xs => x ++ String.singleton sep ++ joinWithChar sep xs

/-- Python `path.split("/")[-1]` (the observed entry's name). -/
def lastComponent (p : String) : String := (pySplit p '/').getLastD ""

/-- Python `s.endswith(suffix)`: a character-sequence suffix test. -/
def pyEndsWith (s sfx : String) : Bool := sfx.data.isSuffixOf s.data

/-- `SchemaValidator.validate_file` (validators.py lines 248-300). -/
def SchemaValidator.validate_file (semantical_name : String) (fs : Fs)
    (extension : String) (pattern_validation : Option Pattern)
    (path : String) : ValidationReport :=
  if fs.isfile path = false then
    ⟨[⟨false, "Path does not exist or is not a file: " ++ path, path,
        "file_exists", semantical_name⟩], none⟩
  else
    let extResults : List ValidationResult :=
      if extension ≠ "" ∧ pyEndsWith path extension = false then
        [⟨false, "File extension mismatch: expected " ++ extension ++ ", got "
            ++ (pySplit path '.').getLastD "", path, "file_extension",
            semantical_name⟩]
      else []
    let patResults : List ValidationResult :=
      match pattern_validation with
      | some pat =>
        if pat.matchFn (lastComponent path) = false then
          [⟨false, "Filename does not match pattern: " ++ pat.pattern, path,
              "file_pattern", semantical_name⟩]
        else []
      | none => []
    ⟨extResults ++ patResults, none⟩

/-- `SchemaValidator.validate_directory` (validators.py lines 302-346). -/
def SchemaValidator.validate_directory (semantical_name : String) (fs : Fs)
    (pattern_validation : Option Pattern) (path : String) : ValidationReport :=
  if fs.isdir path = false then
    ⟨[⟨false, "Path does not exist or is not a directory: " ++ path, path,
        "directory_exists", semantical_name⟩], none⟩
  else
    let patResults : List ValidationResult :=
      match pattern_validation with
      | some pat =>
        if pat.matchFn (lastComponent path) = false then
          [⟨false, "Directory name does not match pattern: " ++ pat.pattern,
              path, "directory_pattern", semantical_name⟩]
        else []
      | none => []
    ⟨patResults, none⟩

/-- `SchemaValidator.validate_node` (validators.py lines 214-245); every
node kind of the model is known, so the `schema_type` fallback branch is
unreachable and not modelled. -/
def SchemaValidator.validate_node (node : SchemaNode) (path : String) :
    ValidationReport :=
  match node with
  | .file n fs ext pat => SchemaValidator.validate_file n fs ext pat path
  | .directory n fs pat _ => SchemaValidator.validate_directory n fs pat path
  | .predicate _ _ _ => ⟨[], none⟩

/-- The under-directory filter of `validate_predicate` (validators.py lines
386 and 400-402): keep `p` when
`path in p.split("/")[:-1] or path == "/".flatten(p.split("/")[:-1])`. -/
def underDir (dir : String) (paths : List String) : List String :=
  paths.filter (fun p =>
    ((pySplit p '/').dropLast.contains dir
      || dir == joinWithChar '/' ((pySplit p '/').dropLast)))

/-- The base-name derivation of `validate_predicate` (validators.py lines
394 and 407): `p.split("/")[-1].split(".")[0]` — the last path component
truncated at its FIRST dot. -/
def baseNameOf (p : String) : String :=
  (pySplit (lastComponent p) '.').headD ""

/-- A Python `set` built by repeated insertion, modelled as a duplicate-free
list in first-insertion order (the claims about predicate reports only use
membership, which is independent of the set's iteration order). -/
def pySetList (l : List String) : List String :=
  l.foldl (fun acc b => if acc.contains b then acc else acc ++ [b]) []

/-- `SchemaValidator.validate_predicate` (validators.py lines 348-423).
The nested `for base_name in base_names: for element in elements[1:]`
loops, which append one failure per unmatched pair, are rendered as
`List.bind`/`List.filterMap`; the `found_match` flag-and-break inner loop
is `List.any`. -/
def SchemaValidator.validate_predicate (semantical_name : String)
    (predicate_type : String) (elements : List String) (path : String)
    (registry : NodeRegistry) : ValidationReport :=
  if predicate_type = "pair_comparison" then
    if elements.length < 2 then
      ⟨[⟨false, "Pair comparison predicate needs at least 2 elements, got "
          ++ toString elements.length, path, semantical_name,
          semantical_name⟩], none⟩
    else
      let first_element := elements.headD ""
      let first_paths := underDir path (registry.get_paths_by_name first_element)
      if first_paths.isEmpty then ⟨[], none⟩
      else
        let base_names := pySetList (first_paths.map baseNameOf)
        let failures := base_names.flatMap (fun base_name =>
          (elements.drop 1).filterMap (fun element =>
            let element_paths := underDir path (registry.get_paths_by_name element)
            if element_paths.any (fun q => baseNameOf q == base_name) then none
            else some ⟨false, "Missing matching " ++ element ++ " for "
                ++ first_element ++ " with base name " ++ base_name, path,
                semantical_name, semantical_name⟩))
        ⟨failures, none⟩
  else ⟨[], none⟩

mutual

/-- Size of a schema node, used as a fuel bound for the recursive
traversals (a node is strictly larger than any of its children). -/
def SchemaNode.nodeSize : SchemaNode → Nat
  | .file _ _ _ _ => 1
  | .predicate _ _ _ => 1
  | .directory _ _ _ children => Nat.succ (nodeSizeList children)

/-- Total size of a list of schema nodes. -/
def nodeSizeList : List SchemaNode → Nat
  | [] => 0
  | c :: rest => Nat.succ (SchemaNode.nodeSize c + nodeSizeList rest)

end

/-- The schema-tree walk of `_evaluate_predicates`
(`traverse_for_predicates`, validators.py lines 194-210), with explicit
fuel; `nodeSize` of the schema is a sufficient bound since each recursive
call descends to a structurally smaller child. -/
def traverseForPredicatesF : Nat → NodeRegistry → SchemaNode → String →
    List ValidationResult
  | 0, _, _, _ => []
  | Nat.succ fuel, registry, node, path =>
    (match node with
     | SchemaNode.predicate n pt els =>
       (SchemaValidator.validate_predicate n pt els path registry).results
     | _ => [])
    ++
    (match node with
     | SchemaNode.directory _ _ _ children =>
       children.flatMap (fun child =>
         traverseForPredicatesF fuel registry child
           (if child.isPredicateNode then path
            else path ++ "/" ++ child.semantical_name))
     | _ => [])

/-- `SchemaValidator._evaluate_predicates` (validators.py lines 174-212). -/
def evaluate_predicates (schema : SchemaNode) (target_path : String)
    (registry : NodeRegistry) : ValidationReport :=
  ⟨traverseForPredicatesF schema.nodeSize registry schema target_path, none⟩

/-- The custom validator registry (`ValidatorRegistry` in
`validation/core.py`): name → validator function, in registration order.
`run_validators` catches any exception a validator raises and converts it
into a failure result, so each validator is modelled as a total function. -/
abbrev CustomValidators :=
  List (String × (SchemaNode → String → List ValidationResult))

/-- `ValidatorRegistry.run_validators`: run every registered validator and
concatenate the results. -/
def runValidators (custom : CustomValidators) (node : SchemaNode)
    (path : String) : List ValidationResult :=
  (custom.map (fun kv => kv.2 node path)).flatten

/-- An action callback (`ActionCallback` in `schema/actions.py`): it may
raise, modelled by `Except String Unit`. The opaque `context` dictionary
argument is passed through unread by the engine and is omitted. -/
abbrev ActionCallback :=
  SchemaNode → String → List (SchemaNode × String) → Except String Unit

/-- `ActionRegistration` from `schema/actions.py`. -/
structure ActionRegistration where
  callback : ActionCallback
  timing : ActionTiming

/-- `ActionRegistry._actions`: name → registration, in registration order. -/
abbrev ActionRegistry := List (String × ActionRegistration)

/-- Dictionary lookup (`ActionRegistry.get`). -/
def actionsGet (acts : ActionRegistry) (name : String) :
    Option ActionRegistration :=
  match acts with
  | [] => none
  | (k, r) :: rest => if k = name then some r else actionsGet rest name

/-- `process_node` (actions.py lines 159-179): invoke the
`DURING_VALIDATION` callback registered for this node's semantic name, if
any. NB there is no `try`/`except` here — an error from the callback
propagates. -/
def process_node (acts : ActionRegistry) (node : SchemaNode) (path : String)
    (parent_contexts : List (SchemaNode × String)) : Except String Unit :=
  match actionsGet acts node.semantical_name with
  | some r =>
    if r.timing = ActionTiming.during_validation then
      r.callback node path parent_contexts
    else Except.ok ()
  | none => Except.ok ()

/-- `ActionRegistry.execute_actions` (actions.py lines 102-156): for every
registration with the requested timing, invoke the callback once per
context registered under that name, catching errors into
`ActionResult(success=False)`. The nested loops appending results are
rendered as `List.map`/`List.flatten`. -/
def execute_actions (acts : ActionRegistry) (registry : NodeRegistry)
    (timing : ActionTiming) : List ActionResult :=
  (acts.map (fun kv =>
    if kv.2.timing ≠ timing then []
    else (NodeRegistry.get_contexts_by_name registry kv.1).map (fun ctx =>
      match kv.2.callback ctx.node ctx.path [] with
      | Except.ok _ => ⟨true, "Action executed successfully", ctx.path, kv.1⟩
      | Except.error e => ⟨false, "Action failed: " ++ e, ctx.path, kv.1⟩))).flatten

/-- The per-observed-child candidate loop of `_validate_structure`
(validators.py lines 142-164): try each declared child in declaration
order, skipping predicate nodes; on the first candidate whose recursive
report is valid, return its results alone; if none is valid, return the
concatenated results of every attempted candidate. `recur` is the
recursive structural validation specialized to the current traversal
state, and `attempted` accumulates `child_reports`. -/
def tryChildrenF
    (recur : SchemaNode → String → NodeRegistry →
      Except String (ValidationReport × NodeRegistry))
    (children : List SchemaNode) (child_path : String)
    (registry : NodeRegistry) (attempted : List ValidationReport) :
    Except String (List ValidationResult × NodeRegistry) :=
  match children with
  | [] => Except.ok ((attempted.map (fun rep => rep.results)).flatten, registry)
  | child :: rest =>
    if child.isPredicateNode then
      tryChildrenF recur rest child_path registry attempted
    else
      match recur child child_path registry with
      | Except.error e => Except.error e
      | Except.ok (child_report, registry') =>
        if child_report.is_valid then Except.ok (child_report.results, registry')
        else tryChildrenF recur rest child_path registry'
          (attempted ++ [child_report])

/-- The outer `for child_path in child_paths` loop of `_validate_structure`
(validators.py line 142), accumulating the merged results of each observed
child into `acc`. -/
def forChildPathsF
    (recur : SchemaNode → String → NodeRegistry →
      Except String (ValidationReport × NodeRegistry))
    (children : List SchemaNode) (child_paths : List String)
    (registry : NodeRegistry) (acc : List ValidationResult) :
    Except String (List ValidationResult × NodeRegistry) :=
  match child_paths with
  | [] => Except.ok (acc, registry)
  | p :: rest =>
    match tryChildrenF recur children p registry [] with
    | Except.error e => Except.error e
    | Except.ok (merged, registry') =>
      forChildPathsF recur children rest registry' (acc ++ merged)

/-- One level of `SchemaValidator._validate_structure` (validators.py
lines 82-172), with the recursion into children abstracted as `recur`
(which the caller specializes with the pushed parent context). Steps, as
in the source: run `validate_node` plus the custom validators; return
early if the NODE report alone is invalid; otherwise register the node,
fire the during-validation action when requested (an error from it
propagates), and for a directory that `isdir`-exists, match every observed
child against the declared children and mark the directory processed. -/
def validateStructureBody
    (recur : SchemaNode → String → NodeRegistry →
      Except String (ValidationReport × NodeRegistry))
    (acts : ActionRegistry) (custom : CustomValidators) (schema : SchemaNode)
    (target_path : String) (registry : NodeRegistry) (execute_flag : Bool)
    (parent_contexts : List (SchemaNode × String)) :
    Except String (ValidationReport × NodeRegistry) :=
  let node_report := SchemaValidator.validate_node schema target_path
  let report_results :=
    node_report.results ++ runValidators custom schema target_path
  if node_report.is_valid = false then
    Except.ok (⟨report_results, none⟩, registry)
  else
    let registry1 := registry.register_node schema target_path
      (parent_contexts.map (fun c => c.2))
    let actionOutcome : Except String Unit :=
      if execute_flag then
        process_node acts schema target_path parent_contexts
      else Except.ok ()
    match actionOutcome with
    | Except.error e => Except.error e
    | Except.ok _ =>
      match schema with
      | SchemaNode.directory _ fs _ children =>
        if fs.isdir target_path then
          match forChildPathsF recur children (fs.ls target_path) registry1
              report_results with
          | Except.error e => Except.error e
          | Except.ok (allResults, registry2) =>
            Except.ok (⟨allResults, none⟩,
              registry2.register_processed_dir target_path)
        else Except.ok (⟨report_results, none⟩, registry1)
      | _ => Except.ok (⟨report_results, none⟩, registry1)

/-- `SchemaValidator._validate_structure` with explicit fuel, decremented
once per recursion level (`nodeSize` of the schema is a sufficient bound,
see `validate_structure`). -/
def validate_structureF : Nat → ActionRegistry → CustomValidators →
    SchemaNode → String → NodeRegistry → Bool →
    List (SchemaNode × String) →
    Except String (ValidationReport × NodeRegistry)
  | 0, _, _, _, _, _, _, _ => Except.error "schema recursion fuel exhausted"
  | Nat.succ fuel, acts, custom, schema, target_path, registry, execute_flag,
      parent_contexts =>
    validateStructureBody
      (fun c q reg =>
        validate_structureF fuel acts custom c q reg execute_flag
          (parent_contexts ++ [(schema, target_path)]))
      acts custom schema target_path registry execute_flag parent_contexts

/-- `SchemaValidator._validate_structure` at its sufficient fuel bound. -/
def validate_structure (acts : ActionRegistry) (custom : CustomValidators)
    (schema : SchemaNode) (target_path : String) (registry : NodeRegistry)
    (execute_flag : Bool) (parent_contexts : List (SchemaNode × String)) :
    Except String (ValidationReport × NodeRegistry) :=
  validate_structureF schema.nodeSize acts custom schema target_path registry
    execute_flag parent_contexts

/-- `SchemaValidator.validate_schema` (validators.py lines 14-64): fresh
registry, structural pass, early return when it is invalid; predicate
pass, early return when it is invalid; after-validation actions when
requested, attached to the report's context when non-empty. -/
def SchemaValidator.validate_schema (acts : ActionRegistry)
    (custom : CustomValidators) (schema : SchemaNode) (target_path : String)
    (execute_flag : Bool) : Except String ValidationReport :=
  match validate_structure acts custom schema target_path NodeRegistry.empty
      execute_flag [] with
  | Except.error e => Except.error e
  | Except.ok (report, registry) =>
    if report.is_valid = false then Except.ok report
    else
      let predicate_report := evaluate_predicates schema target_path registry
      let report2 : ValidationReport :=
        ⟨report.results ++ predicate_report.results, report.actionResults⟩
      if predicate_report.is_valid = false then Except.ok report2
      else if execute_flag then
        let action_results :=
          execute_actions acts registry ActionTiming.after_validation
        if action_results.isEmpty then Except.ok report2
        else Except.ok ⟨report2.results, some action_results⟩
      else Except.ok report2

/-! ## Spec-side definitions

Definitions below this point that carry a `Modelled from the spec` note
render the SPEC's wording, for comparison against the source-derived
definitions above. -/

/-- Modelled from the spec: "filename with its final extension stripped"
(spec §4.2) and "stem" (spec §3) — the name truncated at its LAST dot; a
name without a dot is unchanged. This is the spec-side notion, to be
compared with the source's `baseNameOf` (first-dot truncation) and with
the source's use of the full filename. -/
def stripFinalExtension (filename : String) : String :=
  let parts := pySplit filename '.'
  if parts.length ≤ 1 then filename
  else joinWithChar '.' parts.dropLast

/-- The compiled form of a metacharacter-free (literal) regular
expression: Python's `re.match(lit, s)` succeeds exactly when `lit` is a
prefix of `s`. -/
def litPrefixPattern (lit : String) : Pattern :=
  ⟨lit, fun s => lit.data.isPrefixOf s.data⟩

/-- Modelled from the spec: a string "fully matches" a metacharacter-free
regular expression exactly when it equals its literal text
(`re.fullmatch`). -/
def litFullyMatches (lit s : String) : Bool := lit == s

/-! ## Claims -/

/-- Bridge between the embedding's Python `endswith` and the mathematical
suffix relation. -/
theorem pyEndsWith_iff (s sfx : String) :
    pyEndsWith s sfx = true ↔ sfx.data <:+ s.data := by
  unfold pyEndsWith
  exact List.isSuffixOf_iff_suffix

/-- C10: the file extension check of `validate_file` is a textual suffix
test on the whole path string, not an extension-equality test — with a
non-empty declared extension and an `isfile`-accepted path, no
`file_extension` failure is reported exactly when the path's character
sequence ends with the extension's characters. -/
theorem c10_extension_suffix (n : String) (fs : Fs) (ext : String)
    (pat : Option Pattern) (p : String)
    (hfile : fs.isfile p = true) (hext : ext ≠ "") :
    (∀ r ∈ (SchemaValidator.validate_file n fs ext pat p).results,
      r.validator_name ≠ "file_extension") ↔ ext.data <:+ p.data := by
  unfold SchemaValidator.validate_file
  cases hpe : pyEndsWith p ext
  case false =>
    simp only [hfile, Bool.true_eq_false, if_false, hext, hpe, ne_eq,
      not_false_eq_true, and_self, if_true, List.cons_append,
      List.mem_cons]
    constructor
    · intro h
      exact absurd rfl (h _ (Or.inl rfl))
    · intro h
      have hT := (pyEndsWith_iff p ext).mpr h
      rw [hpe] at hT
      exact absurd hT (by simp)
  case true =>
    simp only [hfile, Bool.true_eq_false, if_false, hpe, Bool.true_eq_false,
      and_false, if_false, List.nil_append]
    constructor
    · intro _
      exact (pyEndsWith_iff p ext).mp hpe
    · intro _ r hr
      cases pat with
      | none => simp at hr
      | some pt =>
        by_cases hm : pt.matchFn (lastComponent p) = false
        · simp only [hm, if_true] at hr
          rcases List.mem_singleton.mp hr with rfl
          simp
        · simp [hm] at hr

/-- C10 witness: the declared extension "jpg" accepts "photo.myjpg". -/
theorem c10_extension_suffix_witness :
    (⟨fun _ => true, fun _ => false, fun _ => []⟩ : Fs).isfile "photo.myjpg" = true
    ∧ "jpg" ≠ ""
    ∧ ((∀ r ∈ (SchemaValidator.validate_file "item"
          ⟨fun _ => true, fun _ => false, fun _ => []⟩ "jpg" none
          "photo.myjpg").results,
        r.validator_name ≠ "file_extension") ↔
        ("jpg".data <:+ "photo.myjpg".data)) :=
  ⟨rfl, by decide,
    c10_extension_suffix "item" ⟨fun _ => true, fun _ => false, fun _ => []⟩
      "jpg" none "photo.myjpg" rfl (by decide)⟩

/-- Observed filesystem used by several concrete runs below: no paths at
all (every capability call reports non-existence). -/
def fsNull : Fs := ⟨fun _ => false, fun _ => false, fun _ => []⟩

/-- C7, amended: the pattern check of `validate_file` / `validate_directory`
applies the compiled pattern's anchored-at-start match function
(`re.match`, a PREFIX match, not `fullmatch`) to the LAST PATH COMPONENT —
for files this is the full filename including its extension, not the stem.
With the existence check passed and a pattern configured, no
`file_pattern` (resp. `directory_pattern`) failure is reported exactly
when that match function accepts the last component. -/
theorem c7_pattern_prefix_full_name :
    (∀ (n : String) (fs : Fs) (ext : String) (pt : Pattern) (p : String),
      fs.isfile p = true →
      ((∀ r ∈ (SchemaValidator.validate_file n fs ext (some pt) p).results,
          r.validator_name ≠ "file_pattern") ↔
        pt.matchFn (lastComponent p) = true))
    ∧ (∀ (n : String) (fs : Fs) (pt : Pattern) (p : String),
      fs.isdir p = true →
      ((∀ r ∈ (SchemaValidator.validate_directory n fs (some pt) p).results,
          r.validator_name ≠ "directory_pattern") ↔
        pt.matchFn (lastComponent p) = true)) := by
  constructor
  · intro n fs ext pt p hfile
    unfold SchemaValidator.validate_file
    cases hm : pt.matchFn (lastComponent p)
    case false =>
      simp only [hfile, Bool.true_eq_false, if_false, hm, if_true,
        Bool.false_eq_true, iff_false]
      intro h
      have hmem : (⟨false, "Filename does not match pattern: " ++ pt.pattern,
          p, "file_pattern", n⟩ : ValidationResult) ∈
          (if ext ≠ "" ∧ pyEndsWith p ext = false then
            [⟨false, "File extension mismatch: expected " ++ ext ++ ", got "
                ++ (pySplit p '.').getLastD "", p, "file_extension", n⟩]
          else []) ++
          [⟨false, "Filename does not match pattern: " ++ pt.pattern, p,
              "file_pattern", n⟩] := by
        simp
      exact h (⟨false, "Filename does not match pattern: " ++ pt.pattern, p,
        "file_pattern", n⟩ : ValidationResult) hmem rfl
    case true =>
      simp only [hfile, Bool.true_eq_false, if_false, hm, Bool.true_eq_false,
        if_false, List.append_nil, iff_true]
      intro r hr
      by_cases hc : (ext ≠ "" ∧ pyEndsWith p ext = false)
      · simp only [if_pos hc, List.mem_singleton] at hr
        subst hr
        simp
      · simp [if_neg hc] at hr
  · intro n fs pt p hdir
    unfold SchemaValidator.validate_directory
    cases hm : pt.matchFn (lastComponent p)
    case false =>
      simp only [hdir, Bool.true_eq_false, if_false, hm, if_true,
        Bool.false_eq_true, iff_false, List.mem_singleton]
      intro h
      exact absurd rfl (h _ rfl)
    case true =>
      simp only [hdir, Bool.true_eq_false, if_false, hm, Bool.true_eq_false,
        if_false, iff_true]
      intro r hr
      simp at hr

/-- C7 witness: a concrete directory whose name prefix-matches the
pattern; the pattern check passes. -/
theorem c7_pattern_prefix_full_name_witness :
    (⟨fun _ => false, fun p => p == "base/run1", fun _ => []⟩ : Fs).isdir
        "base/run1" = true
    ∧ ((∀ r ∈ (SchemaValidator.validate_directory "runs"
          ⟨fun _ => false, fun p => p == "base/run1", fun _ => []⟩
          (some (litPrefixPattern "run")) "base/run1").results,
        r.validator_name ≠ "directory_pattern") ↔
      (litPrefixPattern "run").matchFn (lastComponent "base/run1") = true) :=
  ⟨rfl, c7_pattern_prefix_full_name.2 "runs"
    ⟨fun _ => false, fun p => p == "base/run1", fun _ => []⟩
    (litPrefixPattern "run") "base/run1" rfl⟩

/-- Observed filesystem of the C7 counterexample: one file
`d/photofile.jpg`. -/
def fsC7 : Fs := ⟨fun q => q == "d/photofile.jpg", fun _ => false, fun _ => []⟩

/-- C7 counterexample: claim C7 predicts the check passes exactly when the
STEM ("photofile") FULLY matches the regex. For the literal pattern
"photo" against the file `d/photofile.jpg`, the stem does not fully match,
so the claim predicts a `file_pattern` failure — but the source applies
`re.match` (prefix) to the full filename "photofile.jpg", which succeeds,
and reports nothing. -/
theorem c7_counterexample :
    fsC7.isfile "d/photofile.jpg" = true
    ∧ (SchemaValidator.validate_file "img" fsC7 ""
        (some (litPrefixPattern "photo")) "d/photofile.jpg").results = []
    ∧ stripFinalExtension (lastComponent "d/photofile.jpg") = "photofile"
    ∧ litFullyMatches "photo"
        (stripFinalExtension (lastComponent "d/photofile.jpg")) = false := by
  refine ⟨rfl, ?_, by decide, by decide⟩
  decide

/-- C2 counterexample: a `pair_comparison` predicate with two elements
whose first element has zero registered paths. The claim requires a
failure result in the report; `validate_predicate` instead returns a
report with no results at all ("nothing to check"), and no
`predicate_element` validator tag exists anywhere in the source. -/
theorem c2_counterexample :
    2 ≤ (["a", "b"] : List String).length
    ∧ NodeRegistry.empty.get_paths_by_name "a" = []
    ∧ (SchemaValidator.validate_predicate "pair" "pair_comparison"
        ["a", "b"] "d" NodeRegistry.empty).results = [] := by
  decide

/-- C2, amended: for a `pair_comparison` predicate with at least 2
elements, if the first element's semantic name has zero registered paths
under the predicate's containing directory, `validate_predicate` returns a
report with NO results (the predicate is vacuously satisfied); no failure
is emitted. -/
theorem c2_empty_first_paths (n : String) (elements : List String)
    (path : String) (reg : NodeRegistry) (hlen : 2 ≤ elements.length)
    (hempty : underDir path (reg.get_paths_by_name (elements.headD "")) = []) :
    (SchemaValidator.validate_predicate n "pair_comparison" elements path
      reg).results = [] := by
  have hid : elements.headD "" = elements.head?.getD "" := by
    cases elements <;> rfl
  rw [hid] at hempty
  unfold SchemaValidator.validate_predicate
  simp [Nat.not_lt.mpr hlen, hempty]

/-- C2 amended witness. -/
theorem c2_empty_first_paths_witness :
    2 ≤ (["x", "y"] : List String).length
    ∧ underDir "q" (NodeRegistry.empty.get_paths_by_name
        ((["x", "y"] : List String).headD "")) = []
    ∧ (SchemaValidator.validate_predicate "pairxy" "pair_comparison"
        ["x", "y"] "q" NodeRegistry.empty).results = [] :=
  ⟨by decide, by decide,
    c2_empty_first_paths "pairxy" ["x", "y"] "q" NodeRegistry.empty
      (by decide) (by decide)⟩

/-- Registry of the C8 counterexample: under directory `d`, the semantic
name `img` matched `d/x.y.txt` and `lbl` matched `d/x.png`. -/
def regC8 : NodeRegistry :=
  (NodeRegistry.empty.register_node (SchemaNode.file "img" fsNull "" none)
      "d/x.y.txt" []).register_node
    (SchemaNode.file "lbl" fsNull "" none) "d/x.png" []

/-- C8 counterexample: the claim's base name for `x.y.txt` ("filename with
only its final extension stripped") is `x.y`, and no `lbl` path under `d`
has that base, so the claim requires a missing-counterpart failure; the
source instead truncates at the FIRST dot (base `x`), matches `x.png`, and
reports nothing. -/
theorem c8_counterexample :
    underDir "d" (regC8.get_paths_by_name "img") = ["d/x.y.txt"]
    ∧ stripFinalExtension (lastComponent "d/x.y.txt") = "x.y"
    ∧ (∀ q ∈ underDir "d" (regC8.get_paths_by_name "lbl"),
        stripFinalExtension (lastComponent q) ≠ "x.y")
    ∧ (SchemaValidator.validate_predicate "pred" "pair_comparison"
        ["img", "lbl"] "d" regC8).results = [] := by
  decide

/-- C8, amended: the base name `validate_predicate` derives (for the first
element's registered paths and for every candidate counterpart) is the
filename truncated at its FIRST dot (`baseNameOf`), so a filename with
several dots keeps only the text before the first dot. The report contains
exactly one failure for every pair of a derived base name and a subsequent
element that has no candidate path with an equal first-dot base. -/
theorem c8_first_dot_base (n e₁ : String) (rest : List String) (path : String)
    (reg : NodeRegistry) (r : ValidationResult) (hrest : rest ≠ [])
    (hne : underDir path (reg.get_paths_by_name e₁) ≠ []) :
    r ∈ (SchemaValidator.validate_predicate n "pair_comparison" (e₁ :: rest)
        path reg).results ↔
      ∃ b ∈ pySetList ((underDir path (reg.get_paths_by_name e₁)).map
          baseNameOf),
        ∃ el ∈ rest,
          (∀ q ∈ underDir path (reg.get_paths_by_name el), baseNameOf q ≠ b) ∧
          r = ⟨false, "Missing matching " ++ el ++ " for " ++ e₁
              ++ " with base name " ++ b, path, n, n⟩ := by
  have hlen : ¬ ((e₁ :: rest).length < 2) := by
    cases rest with
    | nil => exact absurd rfl hrest
    | cons a l => simp [List.length_cons]
  unfold SchemaValidator.validate_predicate
  rw [if_pos rfl, if_neg hlen]
  simp only [List.headD_cons, List.drop_one, List.tail_cons]
  rw [if_neg (by simpa [List.isEmpty_iff] using hne)]
  simp only [List.mem_flatMap, List.mem_filterMap,
    Option.ite_none_left_eq_some, Option.some.injEq]
  constructor
  · rintro ⟨b, hb, el, hel, hnone, hres⟩
    refine ⟨b, hb, el, hel, ?_, hres.symm⟩
    intro q hq hqb
    exact hnone (List.any_eq_true.mpr ⟨q, hq, by simp [hqb]⟩)
  · rintro ⟨b, hb, el, hel, hnone, hres⟩
    refine ⟨b, hb, el, hel, ?_, hres.symm⟩
    intro hany
    rcases List.any_eq_true.mp hany with ⟨q, hq, hqb⟩
    exact hnone q hq (by simpa using hqb)

/-- C8 amended witness: `img` matched `d/a.jpg` under `d`, `lbl` matched
nothing; the failure for base `a` and element `lbl` is in the report. -/
theorem c8_first_dot_base_witness :
    ((["lbl"] : List String) ≠ [])
    ∧ underDir "d" ((NodeRegistry.empty.register_node
        (SchemaNode.file "img" fsNull "" none) "d/a.jpg"
        []).get_paths_by_name "img") ≠ []
    ∧ ((⟨false, "Missing matching lbl for img with base name a", "d",
          "pairc8", "pairc8"⟩ : ValidationResult) ∈
        (SchemaValidator.validate_predicate "pairc8" "pair_comparison"
          ["img", "lbl"] "d"
          (NodeRegistry.empty.register_node
            (SchemaNode.file "img" fsNull "" none) "d/a.jpg" [])).results ↔
      ∃ b ∈ pySetList ((underDir "d" ((NodeRegistry.empty.register_node
          (SchemaNode.file "img" fsNull "" none) "d/a.jpg"
          []).get_paths_by_name "img")).map baseNameOf),
        ∃ el ∈ (["lbl"] : List String),
          (∀ q ∈ underDir "d" ((NodeRegistry.empty.register_node
              (SchemaNode.file "img" fsNull "" none) "d/a.jpg"
              []).get_paths_by_name el), baseNameOf q ≠ b) ∧
          (⟨false, "Missing matching lbl for img with base name a", "d",
              "pairc8", "pairc8"⟩ : ValidationResult) =
            ⟨false, "Missing matching " ++ el ++ " for " ++ "img"
              ++ " with base name " ++ b, "d", "pairc8", "pairc8"⟩) :=
  ⟨by decide, by decide,
    c8_first_dot_base "pairc8" "img" ["lbl"] "d"
      (NodeRegistry.empty.register_node
        (SchemaNode.file "img" fsNull "" none) "d/a.jpg" [])
      ⟨false, "Missing matching lbl for img with base name a", "d",
        "pairc8", "pairc8"⟩ (by decide) (by decide)⟩

/-! ## Traversal machinery -/

theorem nodeSize_pos (s : SchemaNode) : 1 ≤ s.nodeSize := by
  cases s <;> simp [SchemaNode.nodeSize]

theorem nodeSize_le_of_mem {c : SchemaNode} {cs : List SchemaNode}
    (h : c ∈ cs) : c.nodeSize ≤ nodeSizeList cs := by
  induction cs with
  | nil => cases h
  | cons a l ih =>
    rcases List.mem_cons.mp h with rfl | h
    · simp [nodeSizeList]
      omega
    · have := ih h
      simp [nodeSizeList]
      omega

/-- Registry growth: the by-name path lists of `r'` extend those of `r`. -/
def regMono (r r' : NodeRegistry) : Prop :=
  ∀ name, ∃ t, r'.get_paths_by_name name = r.get_paths_by_name name ++ t

theorem regMono_refl (r : NodeRegistry) : regMono r r :=
  fun _ => ⟨[], (List.append_nil _).symm⟩

theorem regMono_trans {a b c : NodeRegistry} (h1 : regMono a b)
    (h2 : regMono b c) : regMono a c := by
  intro name
  rcases h1 name with ⟨t1, e1⟩
  rcases h2 name with ⟨t2, e2⟩
  exact ⟨t1 ++ t2, by rw [e2, e1, List.append_assoc]⟩

theorem assocFind_assocAppend (m : List (String × List NodeContext))
    (k : String) (c : NodeContext) (k₂ : String) :
    assocFind (assocAppend m k c) k₂ =
      if k₂ = k then assocFind m k ++ [c] else assocFind m k₂ := by
  induction m with
  | nil =>
    simp only [assocAppend, assocFind]
    by_cases h : k₂ = k
    · subst h
      simp
    · simp [h, Ne.symm h]
  | cons hd tl ih =>
    obtain ⟨k₃, v⟩ := hd
    simp only [assocAppend]
    by_cases h1 : k₃ = k
    · subst h1
      simp only [if_pos rfl, assocFind]
      by_cases h2 : k₂ = k₃
      · subst h2
        simp
      · simp [h2, Ne.symm h2]
    · simp only [if_neg h1, assocFind, ih]
      by_cases h2 : k₂ = k
      · subst h2
        simp [h1]
      · simp [h2]

theorem get_paths_register (r : NodeRegistry) (node : SchemaNode)
    (p : String) (pp : List String) (name : String) :
    (r.register_node node p pp).get_paths_by_name name =
      if name = node.semantical_name then r.get_paths_by_name name ++ [p]
      else r.get_paths_by_name name := by
  unfold NodeRegistry.register_node NodeRegistry.get_paths_by_name
  rw [assocFind_assocAppend]
  split
  · rename_i h
    subst h
    simp
  · rfl

theorem get_paths_processed (r : NodeRegistry) (p : String) (name : String) :
    (r.register_processed_dir p).get_paths_by_name name =
      r.get_paths_by_name name := by
  unfold NodeRegistry.register_processed_dir NodeRegistry.get_paths_by_name
  split <;> rfl

theorem regMono_register (r : NodeRegistry) (node : SchemaNode) (p : String)
    (pp : List String) : regMono r (r.register_node node p pp) := by
  intro name
  rw [get_paths_register]
  split
  · exact ⟨[p], rfl⟩
  · exact ⟨[], (List.append_nil _).symm⟩

theorem regMono_processed (r : NodeRegistry) (p : String) :
    regMono r (r.register_processed_dir p) :=
  fun name => ⟨[], by rw [get_paths_processed, List.append_nil]⟩

/-- Lockstep run of the candidate loop: two runs of `tryChildrenF` over the
same candidates and observed path, from different registries and with
possibly different recursive steps that agree on reports, produce the same
merged results; the registry only grows. -/
theorem tryChildrenF_pair
    (recur₁ recur₂ : SchemaNode → String → NodeRegistry →
      Except String (ValidationReport × NodeRegistry)) :
    ∀ (cs : List SchemaNode),
      (∀ c ∈ cs, ∀ (q : String) (r₁ r₂ : NodeRegistry),
        ∃ rep r₁' r₂', recur₁ c q r₁ = Except.ok (rep, r₁') ∧
          recur₂ c q r₂ = Except.ok (rep, r₂') ∧ regMono r₁ r₁') →
      ∀ (p : String) (reg₁ reg₂ : NodeRegistry)
        (att₁ att₂ : List ValidationReport),
        att₁.map (fun x => x.results) = att₂.map (fun x => x.results) →
        ∃ res reg₁' reg₂',
          tryChildrenF recur₁ cs p reg₁ att₁ = Except.ok (res, reg₁') ∧
          tryChildrenF recur₂ cs p reg₂ att₂ = Except.ok (res, reg₂') ∧
          regMono reg₁ reg₁' := by
  intro cs
  induction cs with
  | nil =>
    intro _ p reg₁ reg₂ att₁ att₂ hatt
    refine ⟨_, reg₁, reg₂, rfl, ?_, regMono_refl _⟩
    simp [tryChildrenF, hatt]
  | cons c rest ih =>
    intro hrec p reg₁ reg₂ att₁ att₂ hatt
    have hrec_rest : ∀ c' ∈ rest, ∀ (q : String) (r₁ r₂ : NodeRegistry),
        ∃ rep r₁' r₂', recur₁ c' q r₁ = Except.ok (rep, r₁') ∧
          recur₂ c' q r₂ = Except.ok (rep, r₂') ∧ regMono r₁ r₁' :=
      fun c' hc' => hrec c' (List.mem_cons_of_mem _ hc')
    by_cases hpred : c.isPredicateNode = true
    · have := ih hrec_rest p reg₁ reg₂ att₁ att₂ hatt
      simpa [tryChildrenF, hpred] using this
    · rcases hrec c (List.mem_cons_self c rest) p reg₁ reg₂ with
        ⟨rep, r₁', r₂', h1, h2, hm⟩
      by_cases hv : rep.is_valid = true
      · exact ⟨rep.results, r₁', r₂',
          by simp [tryChildrenF, hpred, h1, hv],
          by simp [tryChildrenF, hpred, h2, hv], hm⟩
      · rcases ih hrec_rest p r₁' r₂' (att₁ ++ [rep]) (att₂ ++ [rep])
          (by simp [hatt]) with ⟨res, f₁, f₂, k1, k2, km⟩
        exact ⟨res, f₁, f₂,
          by simp [tryChildrenF, hpred, h1, hv, k1],
          by simp [tryChildrenF, hpred, h2, hv, k2],
          regMono_trans hm km⟩

/-- Lockstep run of the observed-children loop (`forChildPathsF`). -/
theorem forChildPathsF_pair
    (recur₁ recur₂ : SchemaNode → String → NodeRegistry →
      Except String (ValidationReport × NodeRegistry))
    (cs : List SchemaNode)
    (hrec : ∀ c ∈ cs, ∀ (q : String) (r₁ r₂ : NodeRegistry),
      ∃ rep r₁' r₂', recur₁ c q r₁ = Except.ok (rep, r₁') ∧
        recur₂ c q r₂ = Except.ok (rep, r₂') ∧ regMono r₁ r₁') :
    ∀ (paths : List String) (acc : List ValidationResult)
      (reg₁ reg₂ : NodeRegistry),
      ∃ res reg₁' reg₂',
        forChildPathsF recur₁ cs paths reg₁ acc = Except.ok (res, reg₁') ∧
        forChildPathsF recur₂ cs paths reg₂ acc = Except.ok (res, reg₂') ∧
        regMono reg₁ reg₁' := by
  intro paths
  induction paths with
  | nil =>
    intro acc reg₁ reg₂
    exact ⟨acc, reg₁, reg₂, rfl, rfl, regMono_refl _⟩
  | cons p rest ih =>
    intro acc reg₁ reg₂
    rcases tryChildrenF_pair recur₁ recur₂ cs hrec p reg₁ reg₂ [] [] rfl with
      ⟨merged, r₁', r₂', h1, h2, hm⟩
    rcases ih (acc ++ merged) r₁' r₂' with ⟨res, f₁, f₂, k1, k2, km⟩
    exact ⟨res, f₁, f₂, by simp [forChildPathsF, h1, k1],
      by simp [forChildPathsF, h2, k2], regMono_trans hm km⟩

/-- Lockstep run of the structural pass with actions disabled: for
sufficient fuel the run always succeeds, the report depends only on the
custom validators, the schema and the path (not on the incoming registry,
the parent contexts, the action registry or the exact fuel), and the
registry only grows. -/
theorem validate_structureF_pair :
    ∀ (k₁ : Nat) (schema : SchemaNode), schema.nodeSize ≤ k₁ →
    ∀ (k₂ : Nat), schema.nodeSize ≤ k₂ →
    ∀ (custom : CustomValidators) (p : String)
      (acts₁ acts₂ : ActionRegistry) (reg₁ reg₂ : NodeRegistry)
      (par₁ par₂ : List (SchemaNode × String)),
      ∃ rep reg₁' reg₂',
        validate_structureF k₁ acts₁ custom schema p reg₁ false par₁ =
          Except.ok (rep, reg₁') ∧
        validate_structureF k₂ acts₂ custom schema p reg₂ false par₂ =
          Except.ok (rep, reg₂') ∧
        regMono reg₁ reg₁' := by
  intro k₁
  induction k₁ with
  | zero =>
    intro schema h
    have := nodeSize_pos schema
    omega
  | succ n ih =>
    intro schema hs k₂ hk₂ custom p acts₁ acts₂ reg₁ reg₂ par₁ par₂
    cases k₂ with
    | zero =>
      have := nodeSize_pos schema
      omega
    | succ m =>
      simp only [validate_structureF]
      unfold validateStructureBody
      by_cases hnv : (SchemaValidator.validate_node schema p).is_valid = false
      · refine ⟨⟨(SchemaValidator.validate_node schema p).results ++
            runValidators custom schema p, none⟩, reg₁, reg₂, ?_, ?_,
            regMono_refl _⟩ <;> simp [hnv]
      · have hnv' : ((SchemaValidator.validate_node schema p).is_valid = false)
            = False := by simp [hnv]
        cases schema with
        | file nm fs ext pat =>
          refine ⟨⟨(SchemaValidator.validate_node
              (SchemaNode.file nm fs ext pat) p).results ++
              runValidators custom (SchemaNode.file nm fs ext pat) p, none⟩,
            reg₁.register_node (SchemaNode.file nm fs ext pat) p
              (par₁.map (fun c => c.2)),
            reg₂.register_node (SchemaNode.file nm fs ext pat) p
              (par₂.map (fun c => c.2)),
            ?_, ?_, regMono_register _ _ _ _⟩ <;> simp [hnv']
        | predicate nm pt els =>
          refine ⟨⟨(SchemaValidator.validate_node
              (SchemaNode.predicate nm pt els) p).results ++
              runValidators custom (SchemaNode.predicate nm pt els) p, none⟩,
            reg₁.register_node (SchemaNode.predicate nm pt els) p
              (par₁.map (fun c => c.2)),
            reg₂.register_node (SchemaNode.predicate nm pt els) p
              (par₂.map (fun c => c.2)),
            ?_, ?_, regMono_register _ _ _ _⟩ <;> simp [hnv']
        | directory nm fs pat children =>
          by_cases hdir : fs.isdir p = true
          · have hsz : nodeSizeList children ≤ n := by
              have : (SchemaNode.directory nm fs pat children).nodeSize =
                  Nat.succ (nodeSizeList children) := rfl
              omega
            have hszm : nodeSizeList children ≤ m := by
              have : (SchemaNode.directory nm fs pat children).nodeSize =
                  Nat.succ (nodeSizeList children) := rfl
              omega
            have hrec : ∀ c ∈ children, ∀ (q : String)
                (r₁ r₂ : NodeRegistry), ∃ rep r₁' r₂',
                (fun c q reg => validate_structureF n acts₁ custom c q reg
                  false (par₁ ++ [(SchemaNode.directory nm fs pat children, p)]))
                  c q r₁ = Except.ok (rep, r₁') ∧
                (fun c q reg => validate_structureF m acts₂ custom c q reg
                  false (par₂ ++ [(SchemaNode.directory nm fs pat children, p)]))
                  c q r₂ = Except.ok (rep, r₂') ∧ regMono r₁ r₁' := by
              intro c hc q r₁ r₂
              have hcb : c.nodeSize ≤ n :=
                le_trans (nodeSize_le_of_mem hc) hsz
              have hcbm : c.nodeSize ≤ m :=
                le_trans (nodeSize_le_of_mem hc) hszm
              exact ih c hcb m hcbm custom q acts₁ acts₂ r₁ r₂ _ _
            rcases forChildPathsF_pair _ _ children hrec (fs.ls p)
              ((SchemaValidator.validate_node
                  (SchemaNode.directory nm fs pat children) p).results ++
                runValidators custom
                  (SchemaNode.directory nm fs pat children) p)
              (reg₁.register_node (SchemaNode.directory nm fs pat children) p
                (par₁.map (fun c => c.2)))
              (reg₂.register_node (SchemaNode.directory nm fs pat children) p
                (par₂.map (fun c => c.2))) with
              ⟨res, f₁, f₂, k1, k2, km⟩
            refine ⟨⟨res, none⟩, f₁.register_processed_dir p,
              f₂.register_processed_dir p, ?_, ?_, ?_⟩
            · simp [hnv', hdir, k1]
            · simp [hnv', hdir, k2]
            · exact regMono_trans (regMono_register _ _ _ _)
                (regMono_trans km (regMono_processed _ _))
          · refine ⟨⟨(SchemaValidator.validate_node
                (SchemaNode.directory nm fs pat children) p).results ++
                runValidators custom
                  (SchemaNode.directory nm fs pat children) p, none⟩,
              reg₁.register_node (SchemaNode.directory nm fs pat children) p
                (par₁.map (fun c => c.2)),
              reg₂.register_node (SchemaNode.directory nm fs pat children) p
                (par₂.map (fun c => c.2)),
              ?_, ?_, regMono_register _ _ _ _⟩ <;> simp [hnv', hdir]

/-- The canonical structural report of `(custom, schema, path)`: the run
from the empty registry, no parent contexts, actions disabled. By
`validate_structure_ok`, every actions-disabled run returns this report. -/
def canonRep (custom : CustomValidators) (schema : SchemaNode) (p : String) :
    ValidationReport :=
  match validate_structure [] custom schema p NodeRegistry.empty false [] with
  | Except.ok x => x.1
  | Except.error _ => ⟨[], none⟩

/-- Every actions-disabled structural run succeeds, returns the canonical
report, and only grows the registry. -/
theorem validate_structure_ok (acts : ActionRegistry)
    (custom : CustomValidators) (schema : SchemaNode) (p : String)
    (reg : NodeRegistry) (parents : List (SchemaNode × String)) :
    ∃ reg', validate_structure acts custom schema p reg false parents =
      Except.ok (canonRep custom schema p, reg') ∧ regMono reg reg' := by
  rcases validate_structureF_pair schema.nodeSize schema le_rfl
    schema.nodeSize le_rfl custom p acts [] reg NodeRegistry.empty parents []
    with ⟨rep, r1, r2, h1, h2, hm⟩
  refine ⟨r1, ?_, hm⟩
  have hc : canonRep custom schema p = rep := by
    unfold canonRep validate_structure
    rw [h2]
  rw [hc]
  exact h1

/-- Structural reports never carry attached action results (the
`action_results` context key is only ever set by `validate_schema`). -/
theorem structureF_report_none (k : Nat) (acts : ActionRegistry)
    (custom : CustomValidators) (schema : SchemaNode) (p : String)
    (reg : NodeRegistry) (ea : Bool) (parents : List (SchemaNode × String))
    (rep : ValidationReport) (reg' : NodeRegistry)
    (h : validate_structureF k acts custom schema p reg ea parents =
      Except.ok (rep, reg')) : rep.actionResults = none := by
  cases k with
  | zero => simp [validate_structureF] at h
  | succ n =>
    simp only [validate_structureF] at h
    unfold validateStructureBody at h
    by_cases hnv : (SchemaValidator.validate_node schema p).is_valid = false
    · rw [if_pos hnv] at h
      simp only [Except.ok.injEq, Prod.mk.injEq] at h
      rw [← h.1]
    · rw [if_neg hnv] at h
      cases hproc : (if ea = true then process_node acts schema p parents
          else Except.ok ()) with
      | error e =>
        rw [hproc] at h
        simp at h
      | ok u =>
        rw [hproc] at h
        simp only [] at h
        split at h
        · split at h
          · split at h
            · simp at h
            · simp only [Except.ok.injEq, Prod.mk.injEq] at h
              rw [← h.1]
          · simp only [Except.ok.injEq, Prod.mk.injEq] at h
            rw [← h.1]
        · simp only [Except.ok.injEq, Prod.mk.injEq] at h
          rw [← h.1]

/-- `validate_schema` with actions disabled always succeeds. -/
theorem validate_schema_ok (acts : ActionRegistry)
    (custom : CustomValidators) (schema : SchemaNode) (p : String) :
    ∃ rep, SchemaValidator.validate_schema acts custom schema p false =
      Except.ok rep := by
  rcases validate_structure_ok acts custom schema p NodeRegistry.empty []
    with ⟨reg', h, _⟩
  unfold SchemaValidator.validate_schema
  rw [h]
  by_cases hv : (canonRep custom schema p).is_valid = false
  · exact ⟨canonRep custom schema p, by simp [hv]⟩
  · by_cases hp : (evaluate_predicates schema p reg').is_valid = false
    · exact ⟨⟨(canonRep custom schema p).results ++
        (evaluate_predicates schema p reg').results,
        (canonRep custom schema p).actionResults⟩, by simp [hv, hp]⟩
    · exact ⟨⟨(canonRep custom schema p).results ++
        (evaluate_predicates schema p reg').results,
        (canonRep custom schema p).actionResults⟩, by simp [hv, hp]⟩

/-- Modelled from the spec: the filesystem capability WITH its error
channel (spec §5-6). A call either answers or raises an I/O error
(`Except.error` carrying the Python exception's message). The capability
implementation is external to `src/` (nothing there assigns `node.fs`),
but the matcher that calls it IS in `src/` and wraps no capability call in
`try`/`except`; `FsE` keeps the raising case observable so that the
matcher's handling of a raised capability error can be settled. The total
model `Fs` above describes only runs in which no capability call raises. -/
structure FsE where
  isfile : String → Except String Bool
  isdir : String → Except String Bool
  ls : String → Except String (List String)

/-- The schema node hierarchy over the fallible capability (same fields as
`SchemaNode`). -/
inductive SchemaNodeE where
  | file (semantical_name : String) (fs : FsE) (extension : String)
      (pattern_validation : Option Pattern)
  | directory (semantical_name : String) (fs : FsE)
      (pattern_validation : Option Pattern) (children : List SchemaNodeE)
  | predicate (semantical_name : String) (predicate_type : String)
      (elements : List String)

/-- `node.semantical_name` (fallible-capability world). -/
def SchemaNodeE.semantical_name : SchemaNodeE → String
  | .file n _ _ _ => n
  | .directory n _ _ _ => n
  | .predicate n _ _ => n

/-- `isinstance(node, SchemaPredicateNode)` (fallible-capability world). -/
def SchemaNodeE.isPredicateNode : SchemaNodeE → Bool
  | .predicate _ _ _ => true
  | _ => false

mutual

/-- Size of a fallible-world schema node, the fuel bound of
`validate_structureE`. -/
def SchemaNodeE.nodeSize : SchemaNodeE → Nat
  | .file _ _ _ _ => 1
  | .predicate _ _ _ => 1
  | .directory _ _ _ children => Nat.succ (nodeSizeListE children)

/-- Total size of a list of fallible-world schema nodes. -/
def nodeSizeListE : List SchemaNodeE → Nat
  | [] => 0
  | c :: rest => Nat.succ (SchemaNodeE.nodeSize c + nodeSizeListE rest)

end

/-- `NodeContext` over fallible-world nodes. -/
structure NodeContextE where
  node : SchemaNodeE
  path : String
  parent_paths : List String

/-- `NodeRegistry` over fallible-world nodes (registry.py; the registry
itself performs no filesystem calls and is unchanged). -/
structure NodeRegistryE where
  nodes_by_name : List (String × List NodeContextE)
  nodes_by_path : List (String × NodeContextE)
  processed_dirs : List String

/-- A fresh registry (fallible-capability world). -/
def NodeRegistryE.empty : NodeRegistryE := ⟨[], [], []⟩

/-- `dict.setdefault(k, []).append(c)` (fallible-capability world). -/
def assocAppendE (m : List (String × List NodeContextE)) (k : String)
    (c : NodeContextE) : List (String × List NodeContextE) :=
  match m with
  | [] => [(k, [c])]
  | (k', v) :: rest =>
    if k' = k then (k', v ++ [c]) :: rest else (k', v) :: assocAppendE rest k c

/-- `dict[k] = c` (fallible-capability world). -/
def assocSetE (m : List (String × NodeContextE)) (k : String)
    (c : NodeContextE) : List (String × NodeContextE) :=
  match m with
  | [] => [(k, c)]
  | (k', v) :: rest =>
    if k' = k then (k', c) :: rest else (k', v) :: assocSetE rest k c

/-- `dict.get(k, [])` (fallible-capability world). -/
def assocFindE (m : List (String × List NodeContextE)) (k : String) :
    List NodeContextE :=
  match m with
  | [] => []
  | (k', v) :: rest => if k' = k then v else assocFindE rest k

/-- `NodeRegistry.register_node` (fallible-capability world). -/
def NodeRegistryE.register_node (r : NodeRegistryE) (node : SchemaNodeE)
    (path : String) (parent_paths : List String) : NodeRegistryE :=
  { nodes_by_name :=
      assocAppendE r.nodes_by_name node.semantical_name
        ⟨node, path, parent_paths⟩
    nodes_by_path := assocSetE r.nodes_by_path path ⟨node, path, parent_paths⟩
    processed_dirs := r.processed_dirs }

/-- `NodeRegistry.register_processed_dir` (fallible-capability world). -/
def NodeRegistryE.register_processed_dir (r : NodeRegistryE) (p : String) :
    NodeRegistryE :=
  if r.processed_dirs.contains p then r
  else { r with processed_dirs := r.processed_dirs ++ [p] }

/-- `NodeRegistry.get_contexts_by_name` (fallible-capability world). -/
def NodeRegistryE.get_contexts_by_name (r : NodeRegistryE) (name : String) :
    List NodeContextE :=
  assocFindE r.nodes_by_name name

/-- `NodeRegistry.get_paths_by_name` (fallible-capability world). -/
def NodeRegistryE.get_paths_by_name (r : NodeRegistryE) (name : String) :
    List String :=
  (assocFindE r.nodes_by_name name).map (fun c => c.path)

/-- `SchemaValidator.validate_file` with the capability's error channel:
the source wraps `node.fs.isfile(path)` (line 262) in no `try`/`except`,
so an error the call raises propagates out of `validate_file`. -/
def SchemaValidator.validate_fileE (semantical_name : String) (fs : FsE)
    (extension : String) (pattern_validation : Option Pattern)
    (path : String) : Except String ValidationReport :=
  match fs.isfile path with
  | Except.error e => Except.error e
  | Except.ok b =>
    if b = false then
      Except.ok ⟨[⟨false, "Path does not exist or is not a file: " ++ path,
        path, "file_exists", semantical_name⟩], none⟩
    else
      let extResults : List ValidationResult :=
        if extension ≠ "" ∧ pyEndsWith path extension = false then
          [⟨false, "File extension mismatch: expected " ++ extension
              ++ ", got " ++ (pySplit path '.').getLastD "", path,
              "file_extension", semantical_name⟩]
        else []
      let patResults : List ValidationResult :=
        match pattern_validation with
        | some pat =>
          if pat.matchFn (lastComponent path) = false then
            [⟨false, "Filename does not match pattern: " ++ pat.pattern,
                path, "file_pattern", semantical_name⟩]
          else []
        | none => []
      Except.ok ⟨extResults ++ patResults, none⟩

/-- `SchemaValidator.validate_directory` with the capability's error
channel: `node.fs.isdir(path)` (line 318) is likewise unguarded. -/
def SchemaValidator.validate_directoryE (semantical_name : String)
    (fs : FsE) (pattern_validation : Option Pattern) (path : String) :
    Except String ValidationReport :=
  match fs.isdir path with
  | Except.error e => Except.error e
  | Except.ok b =>
    if b = false then
      Except.ok ⟨[⟨false, "Path does not exist or is not a directory: "
        ++ path, path, "directory_exists", semantical_name⟩], none⟩
    else
      let patResults : List ValidationResult :=
        match pattern_validation with
        | some pat =>
          if pat.matchFn (lastComponent path) = false then
            [⟨false, "Directory name does not match pattern: "
                ++ pat.pattern, path, "directory_pattern",
                semantical_name⟩]
          else []
        | none => []
      Except.ok ⟨patResults, none⟩

/-- `SchemaValidator.validate_node` with the capability's error channel. -/
def SchemaValidator.validate_nodeE (node : SchemaNodeE) (path : String) :
    Except String ValidationReport :=
  match node with
  | .file n fs ext pat => SchemaValidator.validate_fileE n fs ext pat path
  | .directory n fs pat _ =>
    SchemaValidator.validate_directoryE n fs pat path
  | .predicate _ _ _ => Except.ok ⟨[], none⟩

/-- `SchemaValidator.validate_predicate` (fallible-capability world; the
predicate pass reads only the registry, never the capability, so its body
is unchanged). -/
def SchemaValidator.validate_predicateE (semantical_name : String)
    (predicate_type : String) (elements : List String) (path : String)
    (registry : NodeRegistryE) : ValidationReport :=
  if predicate_type = "pair_comparison" then
    if elements.length < 2 then
      ⟨[⟨false, "Pair comparison predicate needs at least 2 elements, got "
          ++ toString elements.length, path, semantical_name,
          semantical_name⟩], none⟩
    else
      let first_element := elements.headD ""
      let first_paths :=
        underDir path (registry.get_paths_by_name first_element)
      if first_paths.isEmpty then ⟨[], none⟩
      else
        let base_names := pySetList (first_paths.map baseNameOf)
        let failures := base_names.flatMap (fun base_name =>
          (elements.drop 1).filterMap (fun element =>
            let element_paths :=
              underDir path (registry.get_paths_by_name element)
            if element_paths.any (fun q => baseNameOf q == base_name) then
              none
            else some ⟨false, "Missing matching " ++ element ++ " for "
                ++ first_element ++ " with base name " ++ base_name, path,
                semantical_name, semantical_name⟩))
        ⟨failures, none⟩
  else ⟨[], none⟩

/-- `traverse_for_predicates` (fallible-capability world). -/
def traverseForPredicatesEF : Nat → NodeRegistryE → SchemaNodeE → String →
    List ValidationResult
  | 0, _, _, _ => []
  | Nat.succ fuel, registry, node, path =>
    (match node with
     | SchemaNodeE.predicate n pt els =>
       (SchemaValidator.validate_predicateE n pt els path registry).results
     | _ => [])
    ++
    (match node with
     | SchemaNodeE.directory _ _ _ children =>
       children.flatMap (fun child =>
         traverseForPredicatesEF fuel registry child
           (if child.isPredicateNode then path
            else path ++ "/" ++ child.semantical_name))
     | _ => [])

/-- `SchemaValidator._evaluate_predicates` (fallible-capability world). -/
def evaluate_predicatesE (schema : SchemaNodeE) (target_path : String)
    (registry : NodeRegistryE) : ValidationReport :=
  ⟨traverseForPredicatesEF schema.nodeSize registry schema target_path, none⟩

/-- The custom validator registry over fallible-world nodes. -/
abbrev CustomValidatorsE :=
  List (String × (SchemaNodeE → String → List ValidationResult))

/-- `ValidatorRegistry.run_validators` (fallible-capability world). -/
def runValidatorsE (custom : CustomValidatorsE) (node : SchemaNodeE)
    (path : String) : List ValidationResult :=
  (custom.map (fun kv => kv.2 node path)).flatten

/-- An action callback over fallible-world nodes. -/
abbrev ActionCallbackE :=
  SchemaNodeE → String → List (SchemaNodeE × String) → Except String Unit

/-- `ActionRegistration` (fallible-capability world). -/
structure ActionRegistrationE where
  callback : ActionCallbackE
  timing : ActionTiming

/-- `ActionRegistry._actions` (fallible-capability world). -/
abbrev ActionRegistryE := List (String × ActionRegistrationE)

/-- `ActionRegistry.get` (fallible-capability world). -/
def actionsGetE (acts : ActionRegistryE) (name : String) :
    Option ActionRegistrationE :=
  match acts with
  | [] => none
  | (k, r) :: rest => if k = name then some r else actionsGetE rest name

/-- `process_node` (fallible-capability world): still no `try`/`except`. -/
def process_nodeE (acts : ActionRegistryE) (node : SchemaNodeE)
    (path : String) (parent_contexts : List (SchemaNodeE × String)) :
    Except String Unit :=
  match actionsGetE acts node.semantical_name with
  | some r =>
    if r.timing = ActionTiming.during_validation then
      r.callback node path parent_contexts
    else Except.ok ()
  | none => Except.ok ()

/-- `ActionRegistry.execute_actions` (fallible-capability world). -/
def execute_actionsE (acts : ActionRegistryE) (registry : NodeRegistryE)
    (timing : ActionTiming) : List ActionResult :=
  (acts.map (fun kv =>
    if kv.2.timing ≠ timing then []
    else (NodeRegistryE.get_contexts_by_name registry kv.1).map (fun ctx =>
      match kv.2.callback ctx.node ctx.path [] with
      | Except.ok _ => ⟨true, "Action executed successfully", ctx.path, kv.1⟩
      | Except.error e =>
        ⟨false, "Action failed: " ++ e, ctx.path, kv.1⟩))).flatten

/-- The candidate loop of `_validate_structure` (fallible-capability
world; validators.py lines 142-164). -/
def tryChildrenEF
    (recur : SchemaNodeE → String → NodeRegistryE →
      Except String (ValidationReport × NodeRegistryE))
    (children : List SchemaNodeE) (child_path : String)
    (registry : NodeRegistryE) (attempted : List ValidationReport) :
    Except String (List ValidationResult × NodeRegistryE) :=
  match children with
  | [] => Except.ok ((attempted.map (fun rep => rep.results)).flatten, registry)
  | child :: rest =>
    if child.isPredicateNode then
      tryChildrenEF recur rest child_path registry attempted
    else
      match recur child child_path registry with
      | Except.error e => Except.error e
      | Except.ok (child_report, registry') =>
        if child_report.is_valid then
          Except.ok (child_report.results, registry')
        else tryChildrenEF recur rest child_path registry'
          (attempted ++ [child_report])

/-- The observed-children loop of `_validate_structure`
(fallible-capability world; validators.py line 142). -/
def forChildPathsEF
    (recur : SchemaNodeE → String → NodeRegistryE →
      Except String (ValidationReport × NodeRegistryE))
    (children : List SchemaNodeE) (child_paths : List String)
    (registry : NodeRegistryE) (acc : List ValidationResult) :
    Except String (List ValidationResult × NodeRegistryE) :=
  match child_paths with
  | [] => Except.ok (acc, registry)
  | p :: rest =>
    match tryChildrenEF recur children p registry [] with
    | Except.error e => Except.error e
    | Except.ok (merged, registry') =>
      forChildPathsEF recur children rest registry' (acc ++ merged)

/-- One level of `SchemaValidator._validate_structure` with the
capability's error channel kept (validators.py lines 82-172): besides the
callback invocation, the calls `schema.fs.isdir(target_path)` (line 136,
inside the `and` of the directory test) and `schema.fs.ls(target_path)`
(line 137) are unguarded, so an error either of them raises propagates. -/
def validateStructureBodyE
    (recur : SchemaNodeE → String → NodeRegistryE →
      Except String (ValidationReport × NodeRegistryE))
    (acts : ActionRegistryE) (custom : CustomValidatorsE)
    (schema : SchemaNodeE) (target_path : String) (registry : NodeRegistryE)
    (execute_flag : Bool) (parent_contexts : List (SchemaNodeE × String)) :
    Except String (ValidationReport × NodeRegistryE) :=
  match SchemaValidator.validate_nodeE schema target_path with
  | Except.error e => Except.error e
  | Except.ok node_report =>
    let report_results :=
      node_report.results ++ runValidatorsE custom schema target_path
    if node_report.is_valid = false then
      Except.ok (⟨report_results, none⟩, registry)
    else
      let registry1 := registry.register_node schema target_path
        (parent_contexts.map (fun c => c.2))
      let actionOutcome : Except String Unit :=
        if execute_flag then
          process_nodeE acts schema target_path parent_contexts
        else Except.ok ()
      match actionOutcome with
      | Except.error e => Except.error e
      | Except.ok _ =>
        match schema with
        | SchemaNodeE.directory _ fs _ children =>
          match fs.isdir target_path with
          | Except.error e => Except.error e
          | Except.ok d =>
            if d then
              match fs.ls target_path with
              | Except.error e => Except.error e
              | Except.ok child_paths =>
                match forChildPathsEF recur children child_paths registry1
                    report_results with
                | Except.error e => Except.error e
                | Except.ok (allResults, registry2) =>
                  Except.ok (⟨allResults, none⟩,
                    registry2.register_processed_dir target_path)
            else Except.ok (⟨report_results, none⟩, registry1)
        | _ => Except.ok (⟨report_results, none⟩, registry1)

/-- `SchemaValidator._validate_structure` with the capability's error
channel, fuel-indexed. -/
def validate_structureEF : Nat → ActionRegistryE → CustomValidatorsE →
    SchemaNodeE → String → NodeRegistryE → Bool →
    List (SchemaNodeE × String) →
    Except String (ValidationReport × NodeRegistryE)
  | 0, _, _, _, _, _, _, _ => Except.error "schema recursion fuel exhausted"
  | Nat.succ fuel, acts, custom, schema, target_path, registry, execute_flag,
      parent_contexts =>
    validateStructureBodyE
      (fun c q reg =>
        validate_structureEF fuel acts custom c q reg execute_flag
          (parent_contexts ++ [(schema, target_path)]))
      acts custom schema target_path registry execute_flag parent_contexts

/-- `SchemaValidator._validate_structure` with the capability's error
channel, at its sufficient fuel bound. -/
def validate_structureE (acts : ActionRegistryE) (custom : CustomValidatorsE)
    (schema : SchemaNodeE) (target_path : String) (registry : NodeRegistryE)
    (execute_flag : Bool) (parent_contexts : List (SchemaNodeE × String)) :
    Except String (ValidationReport × NodeRegistryE) :=
  validate_structureEF schema.nodeSize acts custom schema target_path
    registry execute_flag parent_contexts

/-- `SchemaValidator.validate_schema` with the capability's error channel
(validators.py lines 14-64): an error surfacing from the structural pass
propagates out of `validate_schema` as well. -/
def SchemaValidator.validate_schemaE (acts : ActionRegistryE)
    (custom : CustomValidatorsE) (schema : SchemaNodeE)
    (target_path : String) (execute_flag : Bool) :
    Except String ValidationReport :=
  match validate_structureE acts custom schema target_path
      NodeRegistryE.empty execute_flag [] with
  | Except.error e => Except.error e
  | Except.ok (report, registry) =>
    if report.is_valid = false then Except.ok report
    else
      let predicate_report := evaluate_predicatesE schema target_path registry
      let report2 : ValidationReport :=
        ⟨report.results ++ predicate_report.results, report.actionResults⟩
      if predicate_report.is_valid = false then Except.ok report2
      else if execute_flag then
        let action_results :=
          execute_actionsE acts registry ActionTiming.after_validation
        if action_results.isEmpty then Except.ok report2
        else Except.ok ⟨report2.results, some action_results⟩
      else Except.ok report2

/-- The failing filesystem of C9: `r` exists and `isdir` answers true, but
listing `r` raises a permission error (a directory the process may stat
but not read). -/
def fsC9 : FsE :=
  ⟨fun _ => Except.ok false,
    fun p => Except.ok (p == "r"),
    fun p =>
      if p == "r" then
        Except.error "PermissionError: [Errno 13] Permission denied: 'r'"
      else Except.ok []⟩

/-- The schema of the C9 failing input: a single directory node. -/
def schemaC9 : SchemaNodeE := SchemaNodeE.directory "root" fsC9 none []

/-- C9 (code evaluated at the failing input): the claim — and spec §5/§7 —
require the matcher to treat a capability I/O error as "path does not
exist", record an invalid `file_exists`/`directory_exists` result, and
never let the error propagate out of `_validate_structure` or
`validate_schema`. The matcher in `src/` wraps no `node.fs` call in
`try`/`except`: on a directory whose `isdir` answers true but whose `ls`
raises a `PermissionError`, the error propagates uncaught out of both
entry points instead of degrading to an invalid result — the code
contradicts the spec's stated intent. -/
theorem c9_fs_fault_propagates :
    fsC9.isdir "r" = Except.ok true
    ∧ fsC9.ls "r" =
        Except.error "PermissionError: [Errno 13] Permission denied: 'r'"
    ∧ validate_structureE [] [] schemaC9 "r" NodeRegistryE.empty false [] =
        Except.error "PermissionError: [Errno 13] Permission denied: 'r'"
    ∧ SchemaValidator.validate_schemaE [] [] schemaC9 "r" false =
        Except.error "PermissionError: [Errno 13] Permission denied: 'r'" :=
  ⟨rfl, rfl, rfl, rfl⟩

/-- C4, amended: the early return of `_validate_structure` is gated on the
NODE report alone (`validate_node`), not on the combined report — when
`validate_node` is invalid the function returns the node results followed
by the custom-validator results, does not register the node, and does not
explore the subtree (the registry is returned unchanged). Custom-validator
failures alone do not trigger this return. -/
theorem c4_node_report_gate (acts : ActionRegistry)
    (custom : CustomValidators) (schema : SchemaNode) (p : String)
    (reg : NodeRegistry) (ea : Bool) (parents : List (SchemaNode × String))
    (h : (SchemaValidator.validate_node schema p).is_valid = false) :
    validate_structure acts custom schema p reg ea parents =
      Except.ok (⟨(SchemaValidator.validate_node schema p).results ++
        runValidators custom schema p, none⟩, reg) := by
  unfold validate_structure
  obtain ⟨k, hk⟩ : ∃ k, schema.nodeSize = k + 1 :=
    ⟨schema.nodeSize - 1, by have := nodeSize_pos schema; omega⟩
  rw [hk]
  simp only [validate_structureF]
  unfold validateStructureBody
  rw [if_pos h]

/-- C4 amended witness: a file whose `isfile` check fails. -/
theorem c4_node_report_gate_witness :
    (SchemaValidator.validate_node (SchemaNode.file "item" fsNull "txt" none)
      "ghost.txt").is_valid = false
    ∧ validate_structure [] [] (SchemaNode.file "item" fsNull "txt" none)
        "ghost.txt" NodeRegistry.empty false [] =
      Except.ok (⟨(SchemaValidator.validate_node
          (SchemaNode.file "item" fsNull "txt" none) "ghost.txt").results ++
        runValidators [] (SchemaNode.file "item" fsNull "txt" none)
          "ghost.txt", none⟩, NodeRegistry.empty) :=
  ⟨by decide,
    c4_node_report_gate [] [] (SchemaNode.file "item" fsNull "txt" none)
      "ghost.txt" NodeRegistry.empty false [] (by decide)⟩

/-- The custom validator of the C4 counterexample: it rejects the
directory path `r` (and accepts everything else). -/
def customC4 : CustomValidators :=
  [("meta", fun node p =>
    if node.semantical_name == "d" && p == "r" then
      [⟨false, "custom failure", p, "meta", node.semantical_name⟩]
    else [])]

/-- Observed filesystem of the C4 counterexample: a directory `r`
containing one file `r/a`. -/
def fsC4 : Fs :=
  ⟨fun p => p == "r/a", fun p => p == "r",
    fun p => if p == "r" then ["r/a"] else []⟩

/-- Schema of the C4 counterexample: directory `d` with one file child
`f`. -/
def schemaC4 : SchemaNode :=
  SchemaNode.directory "d" fsC4 none [SchemaNode.file "f" fsC4 "" none]

/-- C4 counterexample: the custom validator makes the combined report
invalid at `(d, r)`, yet `_validate_structure` does NOT return immediately:
`d` is registered at `r` and the subtree is explored (`f` is registered at
`r/a`) — the early return checks only the node report. -/
theorem c4_counterexample :
    (validate_structure [] customC4 schemaC4 "r" NodeRegistry.empty false
        []).toOption.map
      (fun x => (x.1.is_valid, x.2.get_paths_by_name "d",
        x.2.get_paths_by_name "f")) = some (false, ["r"], ["r/a"]) := by
  decide

/-- Action registry of the C5 counterexample: a during-validation callback
for semantic name `n` that always raises. -/
def actsC5 : ActionRegistry :=
  [("n", ⟨fun _ _ _ => Except.error "boom", ActionTiming.during_validation⟩)]

/-- Observed filesystem of the C5 counterexample: one file `p`. -/
def fsC5 : Fs := ⟨fun p => p == "p", fun _ => false, fun _ => []⟩

/-- C5 counterexample: a raising `DURING_VALIDATION` callback aborts the
whole structural traversal with the propagated error — it is not caught,
no `ActionResult` with `success = false` is recorded, and the run does not
continue (`process_node` has no try/except). -/
theorem c5_counterexample :
    validate_structure actsC5 [] (SchemaNode.file "n" fsC5 "" none) "p"
      NodeRegistry.empty true [] = Except.error "boom" := by
  rfl

/-- C5, amended: errors raised by action callbacks are caught and recorded
as `ActionResult(success=false)` only on the `ActionRegistry.execute_actions`
path (used for the AFTER_VALIDATION pass); a DURING_VALIDATION callback
invoked through `process_node` during traversal propagates its error,
aborting `_validate_structure`. -/
theorem c5_error_handling :
    (∀ (acts : ActionRegistry) (custom : CustomValidators)
        (schema : SchemaNode) (p : String) (reg : NodeRegistry)
        (parents : List (SchemaNode × String)) (e : String),
      (SchemaValidator.validate_node schema p).is_valid = true →
      process_node acts schema p parents = Except.error e →
      validate_structure acts custom schema p reg true parents =
        Except.error e)
    ∧ (∀ (name : String) (cb : ActionCallback) (reg : NodeRegistry)
        (ctx : NodeContext) (e : String),
      ctx ∈ reg.get_contexts_by_name name →
      cb ctx.node ctx.path [] = Except.error e →
      (⟨false, "Action failed: " ++ e, ctx.path, name⟩ : ActionResult) ∈
        execute_actions [(name, ⟨cb, ActionTiming.after_validation⟩)] reg
          ActionTiming.after_validation) := by
  constructor
  · intro acts custom schema p reg parents e hvalid hproc
    unfold validate_structure
    obtain ⟨k, hk⟩ : ∃ k, schema.nodeSize = k + 1 :=
      ⟨schema.nodeSize - 1, by have := nodeSize_pos schema; omega⟩
    rw [hk]
    simp only [validate_structureF]
    unfold validateStructureBody
    rw [if_neg (by simp [hvalid])]
    simp [hproc]
  · intro name cb reg ctx e hmem hcb
    unfold execute_actions
    simp only [List.map_cons, List.map_nil, ne_eq, not_true_eq_false,
      if_false, List.flatten, List.append_nil]
    refine List.mem_map.mpr ⟨ctx, hmem, ?_⟩
    rw [hcb]

/-- Registry used by the C5 amended witness: one context registered under
`m` at path `w`. -/
def regC5w : NodeRegistry :=
  NodeRegistry.empty.register_node (SchemaNode.file "m" fsNull "" none) "w" []

/-- C5 amended witness: a concrete aborted traversal and a concrete caught
after-validation failure. -/
theorem c5_error_handling_witness :
    (SchemaValidator.validate_node (SchemaNode.file "n" fsC5 "" none)
      "p").is_valid = true
    ∧ process_node actsC5 (SchemaNode.file "n" fsC5 "" none) "p" [] =
        Except.error "boom"
    ∧ validate_structure actsC5 [] (SchemaNode.file "n" fsC5 "" none) "p"
        NodeRegistry.empty true [] = Except.error "boom"
    ∧ ((⟨SchemaNode.file "m" fsNull "" none, "w", []⟩ : NodeContext) ∈
        regC5w.get_contexts_by_name "m")
    ∧ ((fun _ _ _ => Except.error "kaput" : ActionCallback)
        (SchemaNode.file "m" fsNull "" none) "w" [] = Except.error "kaput")
    ∧ (⟨false, "Action failed: " ++ "kaput", "w", "m"⟩ : ActionResult) ∈
        execute_actions
          [("m", ⟨fun _ _ _ => Except.error "kaput",
            ActionTiming.after_validation⟩)] regC5w
          ActionTiming.after_validation :=
  ⟨by decide, rfl,
    c5_error_handling.1 actsC5 [] (SchemaNode.file "n" fsC5 "" none) "p"
      NodeRegistry.empty [] "boom" (by decide) rfl,
    List.mem_singleton.mpr rfl, rfl,
    c5_error_handling.2 "m" (fun _ _ _ => Except.error "kaput") regC5w
      ⟨SchemaNode.file "m" fsNull "" none, "w", []⟩ "kaput"
      (List.mem_singleton.mpr rfl) rfl⟩

/-- Observed filesystem of the C6 counterexample: directory `r` containing
directory `r/c`, which contains one entry `r/c/g` that is neither a file
nor a directory that exists. -/
def fsC6 : Fs :=
  ⟨fun _ => false, fun p => p == "r" || p == "r/c",
    fun p => if p == "r" then ["r/c"] else if p == "r/c" then ["r/c/g"]
      else []⟩

/-- First candidate of the C6 counterexample: directory `x` declaring a
file child, so its subtree fails on `r/c/g`. -/
def candA6 : SchemaNode :=
  SchemaNode.directory "x" fsC6 none [SchemaNode.file "f" fsC6 ".txt" none]

/-- Second candidate of the C6 counterexample: directory `x` with no
declared children, which validates against anything that is a directory. -/
def candB6 : SchemaNode := SchemaNode.directory "x" fsC6 none []

/-- Root schema of the C6 counterexample: both candidates declared as
alternative shapes of the observed child `r/c`. -/
def schemaC6 : SchemaNode := SchemaNode.directory "root" fsC6 none [candA6, candB6]

/-- C6 counterexample: during backtracking over the observed child `r/c`,
candidate `candA6` passes `validate_node`, is registered, and then fails in
its subtree; candidate `candB6` is then tried and registered for the SAME
path. `register_node` is therefore called twice for `r/c` in one run, and
the semantic name `x` ends up with the path `r/c` twice in its context
list. -/
theorem c6_counterexample :
    (validate_structure [] [] schemaC6 "r" NodeRegistry.empty false
        []).toOption.map (fun x => x.2.get_paths_by_name "x") =
      some ["r/c", "r/c"] := by
  decide

/-- C6, amended: registration is per-attempt, not write-once — every
candidate whose `validate_node` passes is registered at that moment, even
if its subtree later fails or a sibling candidate wins the backtracking
match; by-name context lists accumulate one entry per registration (so one
path can occur several times), and the by-path map keeps the most recent
registration. In particular every node whose `validate_node` passes ends
up registered under its semantic name. -/
theorem c6_registration_on_node_pass (acts : ActionRegistry)
    (custom : CustomValidators) (schema : SchemaNode) (p : String)
    (reg : NodeRegistry) (parents : List (SchemaNode × String))
    (hvalid : (SchemaValidator.validate_node schema p).is_valid = true) :
    ∃ rep reg', validate_structure acts custom schema p reg false parents =
      Except.ok (rep, reg')
      ∧ p ∈ reg'.get_paths_by_name schema.semantical_name := by
  have hmem1 : ∀ (r : NodeRegistry) (pp : List String),
      p ∈ (r.register_node schema p pp).get_paths_by_name
        schema.semantical_name := by
    intro r pp
    rw [get_paths_register, if_pos rfl]
    simp
  unfold validate_structure
  obtain ⟨k, hk⟩ : ∃ k, schema.nodeSize = k + 1 :=
    ⟨schema.nodeSize - 1, by have := nodeSize_pos schema; omega⟩
  rw [hk]
  simp only [validate_structureF]
  unfold validateStructureBody
  rw [if_neg (by simp [hvalid])]
  cases schema with
  | file nm fs ext pat =>
    refine ⟨⟨(SchemaValidator.validate_node (SchemaNode.file nm fs ext pat)
        p).results ++ runValidators custom (SchemaNode.file nm fs ext pat) p,
        none⟩,
      reg.register_node (SchemaNode.file nm fs ext pat) p
        (parents.map (fun c => c.2)), ?_, hmem1 reg _⟩
    simp
  | predicate nm pt els =>
    refine ⟨⟨(SchemaValidator.validate_node (SchemaNode.predicate nm pt els)
        p).results ++ runValidators custom (SchemaNode.predicate nm pt els) p,
        none⟩,
      reg.register_node (SchemaNode.predicate nm pt els) p
        (parents.map (fun c => c.2)), ?_, hmem1 reg _⟩
    simp
  | directory nm fs pat children =>
    by_cases hdir : fs.isdir p = true
    · have hsz : nodeSizeList children ≤ k := by
        have : (SchemaNode.directory nm fs pat children).nodeSize =
            Nat.succ (nodeSizeList children) := rfl
        omega
      have hrec : ∀ c ∈ children, ∀ (q : String) (r₁ r₂ : NodeRegistry),
          ∃ rp r₁' r₂',
          (fun c q rg => validate_structureF k acts custom c q rg false
            (parents ++ [(SchemaNode.directory nm fs pat children, p)]))
            c q r₁ = Except.ok (rp, r₁') ∧
          (fun c q rg => validate_structureF k acts custom c q rg false
            (parents ++ [(SchemaNode.directory nm fs pat children, p)]))
            c q r₂ = Except.ok (rp, r₂') ∧ regMono r₁ r₁' := by
        intro c hc q r₁ r₂
        have hcb : c.nodeSize ≤ k := le_trans (nodeSize_le_of_mem hc) hsz
        exact validate_structureF_pair k c hcb k hcb custom q acts acts r₁ r₂
          _ _
      rcases forChildPathsF_pair _ _ children hrec (fs.ls p)
        ((SchemaValidator.validate_node
            (SchemaNode.directory nm fs pat children) p).results ++
          runValidators custom (SchemaNode.directory nm fs pat children) p)
        (reg.register_node (SchemaNode.directory nm fs pat children) p
          (parents.map (fun c => c.2)))
        (reg.register_node (SchemaNode.directory nm fs pat children) p
          (parents.map (fun c => c.2))) with ⟨res, f₁, f₂, k1, k2, km⟩
      refine ⟨⟨res, none⟩, f₁.register_processed_dir p, ?_, ?_⟩
      · simp [hdir, k1]
      · rw [get_paths_processed]
        rcases km (SchemaNode.directory nm fs pat children).semantical_name
          with ⟨t, ht⟩
        rw [ht]
        exact List.mem_append_left _ (hmem1 reg _)
    · refine ⟨⟨(SchemaValidator.validate_node
          (SchemaNode.directory nm fs pat children) p).results ++
          runValidators custom (SchemaNode.directory nm fs pat children) p,
          none⟩,
        reg.register_node (SchemaNode.directory nm fs pat children) p
          (parents.map (fun c => c.2)), ?_, hmem1 reg _⟩
      simp [hdir]

/-- C6 amended witness: the directory root of the counterexample run is
itself registered. -/
theorem c6_registration_on_node_pass_witness :
    (SchemaValidator.validate_node schemaC6 "r").is_valid = true
    ∧ ∃ rep reg', validate_structure [] [] schemaC6 "r" NodeRegistry.empty
        false [] = Except.ok (rep, reg')
        ∧ "r" ∈ reg'.get_paths_by_name schemaC6.semantical_name :=
  ⟨by decide,
    c6_registration_on_node_pass [] [] schemaC6 "r" NodeRegistry.empty []
      (by decide)⟩

/-- The recursive step of the candidate loop as `_validate_structure`
performs it (actions disabled): recursively validate a declared child
against the observed child path, threading the shared registry. -/
def childStep (custom : CustomValidators)
    (parents : List (SchemaNode × String)) :
    SchemaNode → String → NodeRegistry →
      Except String (ValidationReport × NodeRegistry) :=
  fun c q reg => validate_structure [] custom c q reg false parents

/-- Helper for C1: walking the failing prefix of the candidate list, the
trailing candidates after the first success are irrelevant and the merged
results are exactly the successful candidate's results (whatever reports
were already attempted). -/
theorem c1_aux (custom : CustomValidators)
    (parents : List (SchemaNode × String)) (p : String) :
    ∀ (pre : List SchemaNode) (c : SchemaNode) (post : List SchemaNode)
      (reg : NodeRegistry) (att : List ValidationReport),
      c.isPredicateNode = false →
      (canonRep custom c p).is_valid = true →
      (∀ d ∈ pre, d.isPredicateNode = false →
        (canonRep custom d p).is_valid = false) →
      ∃ reg',
        tryChildrenF (childStep custom parents) (pre ++ c :: post) p reg att =
          Except.ok ((canonRep custom c p).results, reg') ∧
        tryChildrenF (childStep custom parents) (pre ++ [c]) p reg att =
          Except.ok ((canonRep custom c p).results, reg') := by
  intro pre
  induction pre with
  | nil =>
    intro c post reg att hc hcv _
    rcases validate_structure_ok [] custom c p reg parents with
      ⟨reg', hrun, _⟩
    refine ⟨reg', ?_, ?_⟩ <;>
      simp [tryChildrenF, hc, childStep, hrun, hcv]
  | cons d rest ih =>
    intro c post reg att hc hcv hpre
    by_cases hd : d.isPredicateNode = true
    · have := ih c post reg att hc hcv
        (fun d' hd' hnp => hpre d' (List.mem_cons_of_mem _ hd') hnp)
      simpa [tryChildrenF, hd] using this
    · have hdinv : (canonRep custom d p).is_valid = false :=
        hpre d (List.mem_cons_self d rest) (by simpa using hd)
      rcases validate_structure_ok [] custom d p reg parents with
        ⟨regd, hrund, _⟩
      rcases ih c post regd (att ++ [canonRep custom d p]) hc hcv
        (fun d' hd' hnp => hpre d' (List.mem_cons_of_mem _ hd') hnp) with
        ⟨reg', h1, h2⟩
      refine ⟨reg', ?_, ?_⟩ <;>
        simp [tryChildrenF, hd, childStep, hrund, hdinv, h1, h2]

/-- Helper for C1: when every non-predicate candidate fails, the merged
results are the concatenation of every attempted candidate's results, in
declaration order. -/
theorem c1_aux2 (custom : CustomValidators)
    (parents : List (SchemaNode × String)) (p : String) :
    ∀ (cs : List SchemaNode) (reg : NodeRegistry)
      (att : List ValidationReport),
      (∀ d ∈ cs, d.isPredicateNode = false →
        (canonRep custom d p).is_valid = false) →
      ∃ reg',
        tryChildrenF (childStep custom parents) cs p reg att =
          Except.ok (((att ++ (cs.filter
              (fun d => !d.isPredicateNode)).map
                (fun d => canonRep custom d p)).map
              (fun x => x.results)).flatten, reg') := by
  intro cs
  induction cs with
  | nil =>
    intro reg att _
    exact ⟨reg, by simp [tryChildrenF]⟩
  | cons d rest ih =>
    intro reg att hall
    by_cases hd : d.isPredicateNode = true
    · rcases ih reg att
        (fun d' hd' hnp => hall d' (List.mem_cons_of_mem _ hd') hnp) with
        ⟨reg', h⟩
      exact ⟨reg', by simpa [tryChildrenF, hd] using h⟩
    · have hdinv : (canonRep custom d p).is_valid = false :=
        hall d (List.mem_cons_self d rest) (by simpa using hd)
      rcases validate_structure_ok [] custom d p reg parents with
        ⟨regd, hrund, _⟩
      rcases ih regd (att ++ [canonRep custom d p])
        (fun d' hd' hnp => hall d' (List.mem_cons_of_mem _ hd') hnp) with
        ⟨reg', h⟩
      refine ⟨reg', ?_⟩
      rw [show ((d :: rest).filter (fun d => !d.isPredicateNode)) =
        d :: rest.filter (fun d => !d.isPredicateNode) by simp [hd]]
      simp only [tryChildrenF, hd, Bool.false_eq_true, if_false, childStep]
      rw [hrund]
      simp only [hdinv, Bool.false_eq_true, if_false]
      rw [h]
      simp

/-- C1: backtracking child matching. For one observed child path, the
candidate loop of `_validate_structure` (embedded as `tryChildrenF` with
the recursive step `childStep`) tries the declared children in declaration
order, skipping predicate nodes; when the first non-predicate candidate
`c` with a valid recursive report is reached (all earlier non-predicate
candidates failing), the merged results are exactly `c`'s results and the
remaining candidates are never attempted (the outcome equals the run in
which they are absent); when every non-predicate candidate fails, the
reports of all attempted candidates are merged in declaration order. -/
theorem c1_backtracking_first_match (custom : CustomValidators)
    (parents : List (SchemaNode × String)) (p : String) :
    (∀ (pre : List SchemaNode) (c : SchemaNode) (post : List SchemaNode)
      (reg : NodeRegistry),
      c.isPredicateNode = false →
      (canonRep custom c p).is_valid = true →
      (∀ d ∈ pre, d.isPredicateNode = false →
        (canonRep custom d p).is_valid = false) →
      ∃ reg',
        tryChildrenF (childStep custom parents) (pre ++ c :: post) p reg [] =
          Except.ok ((canonRep custom c p).results, reg') ∧
        tryChildrenF (childStep custom parents) (pre ++ [c]) p reg [] =
          Except.ok ((canonRep custom c p).results, reg'))
    ∧ (∀ (cs : List SchemaNode) (reg : NodeRegistry),
      (∀ d ∈ cs, d.isPredicateNode = false →
        (canonRep custom d p).is_valid = false) →
      ∃ reg',
        tryChildrenF (childStep custom parents) cs p reg [] =
          Except.ok ((((cs.filter (fun d => !d.isPredicateNode)).map
              (fun d => canonRep custom d p)).map
              (fun x => x.results)).flatten, reg')) := by
  constructor
  · intro pre c post reg hc hcv hpre
    exact c1_aux custom parents p pre c post reg [] hc hcv hpre
  · intro cs reg hall
    rcases c1_aux2 custom parents p cs reg [] hall with ⟨reg', h⟩
    exact ⟨reg', by simpa using h⟩

/-- Observed filesystem of the C1 witness: one directory `q` with no
entries. -/
def fsC1 : Fs := ⟨fun _ => false, fun q => q == "q", fun _ => []⟩

/-- Candidate A of the C1 witness: a File with extension `txt`. -/
def candA1 : SchemaNode := SchemaNode.file "A" fsC1 "txt" none

/-- Candidate B of the C1 witness: a Directory with no declared children. -/
def candB1 : SchemaNode := SchemaNode.directory "B" fsC1 none []

/-- C1 witness: with candidates A (File, ext=txt) then B (Directory) and
an observed child that is a directory, the match selects B, the merged
results are B's results, and they contain no extension-mismatch failure
for A. -/
theorem c1_backtracking_first_match_witness :
    candB1.isPredicateNode = false
    ∧ (canonRep [] candB1 "q").is_valid = true
    ∧ (∀ d ∈ [candA1], d.isPredicateNode = false →
        (canonRep [] d "q").is_valid = false)
    ∧ (∃ reg',
        tryChildrenF (childStep [] []) ([candA1] ++ candB1 :: []) "q"
          NodeRegistry.empty [] =
          Except.ok ((canonRep [] candB1 "q").results, reg') ∧
        tryChildrenF (childStep [] []) ([candA1] ++ [candB1]) "q"
          NodeRegistry.empty [] =
          Except.ok ((canonRep [] candB1 "q").results, reg'))
    ∧ (∀ r ∈ (canonRep [] candB1 "q").results,
        r.validator_name ≠ "file_extension") :=
  ⟨by decide, by decide, by decide,
    (c1_backtracking_first_match [] [] "q").1 [candA1] candB1 []
      NodeRegistry.empty (by decide) (by decide) (by decide),
    by decide⟩

/-- C3: gating of the later passes in `validate_schema`. Given the
structural pass's outcome `(rep, reg)`: if `rep` is invalid,
`validate_schema` returns `rep` itself — no predicate results are
appended and no action results are attached (so neither later pass ran);
and whenever a returned report carries attached after-validation action
results, the structural pass and the predicate pass were both valid,
actions were requested, and the attached results are the single
`execute_actions` invocation over the AFTER_VALIDATION registrations. -/
theorem c3_gating (acts : ActionRegistry) (custom : CustomValidators)
    (schema : SchemaNode) (p : String) (ea : Bool) (rep : ValidationReport)
    (reg : NodeRegistry)
    (hrun : validate_structure acts custom schema p NodeRegistry.empty ea []
      = Except.ok (rep, reg)) :
    (rep.is_valid = false →
      SchemaValidator.validate_schema acts custom schema p ea =
        Except.ok rep ∧ rep.actionResults = none)
    ∧ (∀ rep', SchemaValidator.validate_schema acts custom schema p ea =
        Except.ok rep' → rep'.actionResults.isSome →
      rep.is_valid = true
      ∧ (evaluate_predicates schema p reg).is_valid = true
      ∧ ea = true
      ∧ rep'.actionResults =
          some (execute_actions acts reg ActionTiming.after_validation)) := by
  have hnone : rep.actionResults = none :=
    structureF_report_none schema.nodeSize acts custom schema p
      NodeRegistry.empty ea [] rep reg hrun
  constructor
  · intro hv
    refine ⟨?_, hnone⟩
    unfold SchemaValidator.validate_schema
    rw [hrun]
    simp only []
    rw [if_pos hv]
  · intro rep' hval hsome
    unfold SchemaValidator.validate_schema at hval
    rw [hrun] at hval
    simp only [] at hval
    by_cases hv : rep.is_valid = false
    · rw [if_pos hv] at hval
      cases hval
      rw [hnone] at hsome
      simp at hsome
    · rw [if_neg hv] at hval
      by_cases hp : (evaluate_predicates schema p reg).is_valid = false
      · rw [if_pos hp] at hval
        cases hval
        simp [hnone] at hsome
      · rw [if_neg hp] at hval
        cases hea : ea with
        | false =>
          rw [hea] at hval
          simp only [Bool.false_eq_true, if_false] at hval
          cases hval
          simp [hnone] at hsome
        | true =>
          rw [hea] at hval
          simp only [if_true] at hval
          by_cases hemp : (execute_actions acts reg
              ActionTiming.after_validation).isEmpty
          · rw [if_pos hemp] at hval
            cases hval
            simp [hnone] at hsome
          · rw [if_neg hemp] at hval
            cases hval
            refine ⟨by simpa using hv, by simpa using hp, rfl, rfl⟩

/-- C3 witness: a structurally failing run returns the structural report
itself with nothing attached. -/
theorem c3_gating_witness :
    validate_structure [] [] (SchemaNode.file "item" fsNull "txt" none)
      "ghost.txt" NodeRegistry.empty false [] =
      Except.ok (⟨[⟨false, "Path does not exist or is not a file: "
        ++ "ghost.txt", "ghost.txt", "file_exists", "item"⟩], none⟩,
        NodeRegistry.empty)
    ∧ (⟨[⟨false, "Path does not exist or is not a file: " ++ "ghost.txt",
        "ghost.txt", "file_exists", "item"⟩], none⟩ :
        ValidationReport).is_valid = false
    ∧ SchemaValidator.validate_schema [] []
        (SchemaNode.file "item" fsNull "txt" none) "ghost.txt" false =
        Except.ok ⟨[⟨false, "Path does not exist or is not a file: "
          ++ "ghost.txt", "ghost.txt", "file_exists", "item"⟩], none⟩
    ∧ (⟨[⟨false, "Path does not exist or is not a file: " ++ "ghost.txt",
        "ghost.txt", "file_exists", "item"⟩], none⟩ :
        ValidationReport).actionResults = none :=
  ⟨rfl, by decide,
    ((c3_gating [] [] (SchemaNode.file "item" fsNull "txt" none) "ghost.txt"
        false _ NodeRegistry.empty rfl).1 (by decide)).1,
    ((c3_gating [] [] (SchemaNode.file "item" fsNull "txt" none) "ghost.txt"
        false _ NodeRegistry.empty rfl).1 (by decide)).2⟩

end Katachi
